import Mathlib

/-!
Shallow embedding of the deployment-state reconciliation engine of
`deploy-monitor-curses.py` (class `CursesMonitor`).  The Python program polls
the AWS control plane each cycle (`update_deployment_status`), resolves the
observed resource snapshots into an ordered list of deployment phases with
sticky completion (`_set_phase_status_unsafe`), adapts its polling cadence
(`background_updater`), and renders a per-frame view that detects teardown
(`run`).  The definitions below translate those code paths; query results are
passed in as explicit data (the `QueryEnv` record), and the list of query
families actually invoked during a cycle is returned alongside the new state.
-/

/-- Phase status strings used by the monitor: "pending", "in_progress", "complete". -/
inductive Status where
  | pending
  | in_progress
  | complete
deriving DecidableEq, Repr

/-- Keys of the ten deployment phases, in the order of the `PHASES` list of the source. -/
inductive PhaseKey where
  | networking
  | security
  | producer_namespace
  | producer_workgroup
  | consumer_namespaces
  | consumer_workgroups
  | vpc_endpoints
  | nlb
  | targets
  | health
deriving DecidableEq, Repr, Fintype

/-- The ordered phase list (the `key` fields of the `PHASES` list in the source). -/
def PHASES : List PhaseKey :=
  [.networking, .security, .producer_namespace, .producer_workgroup,
   .consumer_namespaces, .consumer_workgroups, .vpc_endpoints, .nlb, .targets, .health]

/-- Finite map from phase keys, one field per phase (the source uses a dict keyed by
the ten phase keys, always fully populated). -/
structure PhaseMap (α : Type) where
  networking : α
  security : α
  producer_namespace : α
  producer_workgroup : α
  consumer_namespaces : α
  consumer_workgroups : α
  vpc_endpoints : α
  nlb : α
  targets : α
  health : α
deriving DecidableEq, Repr

namespace PhaseMap

/-- Look up the entry of a phase key. -/
def get (m : PhaseMap α) : PhaseKey → α
  | .networking => m.networking
  | .security => m.security
  | .producer_namespace => m.producer_namespace
  | .producer_workgroup => m.producer_workgroup
  | .consumer_namespaces => m.consumer_namespaces
  | .consumer_workgroups => m.consumer_workgroups
  | .vpc_endpoints => m.vpc_endpoints
  | .nlb => m.nlb
  | .targets => m.targets
  | .health => m.health

/-- Replace the entry of a phase key. -/
def set (m : PhaseMap α) : PhaseKey → α → PhaseMap α
  | .networking, a => { m with networking := a }
  | .security, a => { m with security := a }
  | .producer_namespace, a => { m with producer_namespace := a }
  | .producer_workgroup, a => { m with producer_workgroup := a }
  | .consumer_namespaces, a => { m with consumer_namespaces := a }
  | .consumer_workgroups, a => { m with consumer_workgroups := a }
  | .vpc_endpoints, a => { m with vpc_endpoints := a }
  | .nlb, a => { m with nlb := a }
  | .targets, a => { m with targets := a }
  | .health, a => { m with health := a }

/-- Constant map. -/
def const (a : α) : PhaseMap α :=
  ⟨a, a, a, a, a, a, a, a, a, a⟩

theorem get_set_same (m : PhaseMap α) (k : PhaseKey) (a : α) : (m.set k a).get k = a := by
  cases k <;> rfl

theorem get_set_ne (m : PhaseMap α) {k k' : PhaseKey} (h : k' ≠ k) (a : α) :
    (m.set k a).get k' = m.get k' := by
  cases k <;> cases k' <;> first | rfl | exact absurd rfl h

theorem get_set (m : PhaseMap α) (k k' : PhaseKey) (a : α) :
    (m.set k a).get k' = if k' = k then a else m.get k' := by
  by_cases h : k' = k
  · subst h; simp [get_set_same]
  · simp [h, get_set_ne m h]

end PhaseMap

/-- Test whether the character list `sub` is a leading segment of `s`
(helper for the Python substring operator `in`). -/
def charsLead : List Char → List Char → Bool
  | [], _ => true
  | _ :: _, [] => false
  | a :: as, b :: bs => a == b && charsLead as bs

/-- Test whether the character list `sub` occurs contiguously inside `s`. -/
def charsContains (sub : List Char) : List Char → Bool
  | [] => sub.isEmpty
  | c :: rest => charsLead sub (c :: rest) || charsContains sub rest

/-- Substring containment of Python, `sub in s`. -/
def strContains (s sub : String) : Bool := charsContains sub.data s.data

/-- Lowercasing as in the Python `lower` method (ASCII names only are involved here). -/
def lowerStr (s : String) : String := String.mk (s.data.map Char.toLower)

/-- Insert-or-replace into an association list, preserving insertion order —
the mutation semantics of a Python dict entry assignment. -/
def dictInsert (l : List (String × α)) (k : String) (v : α) : List (String × α) :=
  match l with
  | [] => [(k, v)]
  | (k', v') :: rest => if k' == k then (k, v) :: rest else (k', v') :: dictInsert rest k v

/-- Dictionary lookup. -/
def dictGet (l : List (String × α)) (k : String) : Option α :=
  (l.find? (fun p => p.1 == k)).map (fun p => p.2)

/-- Status/address record stored per endpoint in `resources["endpoint_statuses"]`. -/
structure EndpointRecord where
  status : Option String
  address : Option String
deriving DecidableEq, Repr

/-- The resource cache `self.resources` of the monitor (the timestamp-free fields). -/
structure Resources where
  vpc : Option String
  vpc_cidr : Option String
  subnets : List String
  subnet_azs : List String
  producer_workgroup : Option String
  producer_status : Option String
  consumer_workgroups : List String
  consumer_statuses : List (String × String)
  nlb : Option String
  nlb_dns : Option String
  nlb_state : Option String
  target_group_arn : Option String
  healthy_targets : Nat
  total_targets : Nat
  target_states : List (String × Nat)
  vpc_endpoints : List String
  endpoint_statuses : List (String × EndpointRecord)
deriving DecidableEq, Repr

/-- The resource cache as initialised in `__init__`. -/
def initResources : Resources :=
  { vpc := none, vpc_cidr := none, subnets := [], subnet_azs := []
    producer_workgroup := none, producer_status := none
    consumer_workgroups := [], consumer_statuses := []
    nlb := none, nlb_dns := none, nlb_state := none, target_group_arn := none
    healthy_targets := 0, total_targets := 0, target_states := []
    vpc_endpoints := [], endpoint_statuses := [] }

/-- Row of the `describe-vpcs` query: `[VpcId, CidrBlock]`. -/
structure VpcRow where
  vpcId : String
  cidrBlock : Option String
deriving DecidableEq, Repr

/-- Row of the `describe-subnets` query: `[SubnetId, AvailabilityZone, CidrBlock]`. -/
structure SubnetRow where
  subnetId : String
  az : String
deriving DecidableEq, Repr

/-- Row of the `list-workgroups` query: `[workgroupName, status]`. -/
structure WorkgroupRow where
  workgroupName : String
  status : String
deriving DecidableEq, Repr

/-- Row of the `list-endpoint-access` query: `[endpointName, endpointStatus, address]`
(fields can be absent from the response row). -/
structure EndpointRow where
  endpointName : Option String
  endpointStatus : Option String
  address : Option String
deriving DecidableEq, Repr

/-- Row of the `describe-load-balancers` query: `[State.Code, DNSName]`. -/
structure NlbRow where
  stateCode : String
  dnsName : Option String
deriving DecidableEq, Repr

/-- Results the control plane would return for each query a cycle can issue.
`none` models a failed call (`run_aws_command` collapses every error to `None`);
the target-health entry is the list of `TargetHealth.State` strings. -/
structure QueryEnv where
  vpcs : Option (List VpcRow)
  subnets : Option (List SubnetRow)
  workgroups : Option (List WorkgroupRow)
  endpoints : Option (List EndpointRow)
  nlbs_exact : Option (List NlbRow)
  nlbs_contains : Option (List NlbRow)
  tgs_exact : Option (List String)
  tgs_contains : Option (List String)
  target_health : Option (List String)
deriving DecidableEq, Repr

/-- Python truthiness of an optional list result (`if xs:` / `if xs and len(xs) > 0:`). -/
def truthy : Option (List α) → Bool
  | some (_ :: _) => true
  | _ => false

/-- The query families `update_deployment_status` can invoke in one cycle. -/
inductive QueryFamily where
  | vpcsQ
  | subnetsQ
  | workgroupsQ
  | endpointsQ
  | nlbExactQ
  | nlbContainsQ
  | tgExactQ
  | tgContainsQ
  | targetHealthQ
deriving DecidableEq, Repr

/-- Mutable state of the `CursesMonitor` object relevant to reconciliation
(configuration fields `project_name` / `consumer_count` are immutable). -/
structure MonitorState where
  project_name : String
  consumer_count : Nat
  phase_status : PhaseMap Status
  phase_complete_sticky : PhaseMap Bool
  current_phase_index : Nat
  deployment_complete : Bool
  poll_indicator : Nat
  resources : Resources
deriving DecidableEq, Repr

/-- Monitor state as built by `__init__`: every phase pending, no sticky flags,
deployment not complete. -/
def initState (pname : String) (count : Nat) : MonitorState :=
  { project_name := pname, consumer_count := count
    phase_status := PhaseMap.const Status.pending
    phase_complete_sticky := PhaseMap.const false
    current_phase_index := 0
    deployment_complete := false
    poll_indicator := 0
    resources := initResources }

/-- Translation of `_set_phase_status_unsafe`: a no-op when the sticky
flag is set; otherwise writes the status and, when the new status is complete,
raises the sticky flag. -/
def set_phase_status (s : MonitorState) (phase_key : PhaseKey) (status : Status) : MonitorState :=
  if s.phase_complete_sticky.get phase_key then s
  else
    { s with
      phase_status := s.phase_status.set phase_key status
      phase_complete_sticky :=
        if status == Status.complete then s.phase_complete_sticky.set phase_key true
        else s.phase_complete_sticky }

/-- VPC section of `update_deployment_status` (lines 255-284): skipped when the
networking phase already reads complete; otherwise queries VPCs and, on a match,
records the VPC, marks networking and security complete and queries the subnets. -/
def stepVpcT (s : MonitorState) (vpcs : Option (List VpcRow)) (subnets : Option (List SubnetRow)) :
    MonitorState × List QueryFamily :=
  if s.phase_status.get .networking == Status.complete then (s, [])
  else
    match vpcs with
    | some (v :: _) =>
      let s := { s with resources := { s.resources with vpc := some v.vpcId, vpc_cidr := v.cidrBlock } }
      let s := set_phase_status s .networking Status.complete
      let s := set_phase_status s .security Status.complete
      match subnets with
      | some (r :: rs) =>
        let rows := r :: rs
        ({ s with resources :=
            { s.resources with
              subnets := (rows.take 3).map (fun x => x.subnetId)
              subnet_azs := (rows.take 3).map (fun x => x.az) } },
         [QueryFamily.vpcsQ, QueryFamily.subnetsQ])
      | _ => (s, [QueryFamily.vpcsQ, QueryFamily.subnetsQ])
    | _ => (s, [QueryFamily.vpcsQ])

/-- First pass over the workgroup rows (lines 306-321): rebuilds the
producer/consumer resource entries and counts AVAILABLE and CREATING/MODIFYING
workgroups among those whose name contains the project name. -/
def wgScanStep (pname : String) (acc : Resources × Nat × Nat) (wg : WorkgroupRow) :
    Resources × Nat × Nat :=
  let r := acc.1
  let avail := acc.2.1
  let creating := acc.2.2
  if strContains wg.workgroupName pname then
    let r :=
      if strContains (lowerStr wg.workgroupName) "producer" then
        { r with producer_workgroup := some wg.workgroupName, producer_status := some wg.status }
      else
        let r :=
          if wg.status == "AVAILABLE" then
            { r with consumer_workgroups := r.consumer_workgroups ++ [wg.workgroupName] }
          else r
        { r with consumer_statuses := dictInsert r.consumer_statuses wg.workgroupName wg.status }
    let avail := if wg.status == "AVAILABLE" then avail + 1 else avail
    let creating := if wg.status == "CREATING" || wg.status == "MODIFYING" then creating + 1 else creating
    (r, avail, creating)
  else (r, avail, creating)

/-- Second pass over the workgroup rows (lines 348-363): producer rows drive the
producer phases, consumer rows are counted and mark the consumer namespaces. -/
def wgPhaseStep (acc : MonitorState × Nat × Nat) (wg : WorkgroupRow) : MonitorState × Nat × Nat :=
  let s := acc.1
  let consumer_available := acc.2.1
  let consumer_creating := acc.2.2
  if strContains (lowerStr wg.workgroupName) "producer" then
    if wg.status == "CREATING" then
      (set_phase_status (set_phase_status s .producer_namespace Status.complete)
        .producer_workgroup Status.in_progress, consumer_available, consumer_creating)
    else if wg.status == "AVAILABLE" then
      (set_phase_status (set_phase_status s .producer_namespace Status.complete)
        .producer_workgroup Status.complete, consumer_available, consumer_creating)
    else (s, consumer_available, consumer_creating)
  else
    if wg.status == "CREATING" then
      (set_phase_status s .consumer_namespaces Status.complete,
       consumer_available, consumer_creating + 1)
    else if wg.status == "AVAILABLE" then
      (set_phase_status s .consumer_namespaces Status.complete,
       consumer_available + 1, consumer_creating)
    else (s, consumer_available, consumer_creating)

/-- Tail of the partial-progress branch (lines 344-374): run the second pass and
set the consumer-workgroups phase from the resulting counts. -/
def wgPhasePass (l : List WorkgroupRow) (s : MonitorState) : MonitorState :=
  let res := l.foldl wgPhaseStep (s, 0, 0)
  let s := res.1
  let consumer_available := res.2.1
  let consumer_creating := res.2.2
  if consumer_creating > 0 then set_phase_status s .consumer_workgroups Status.in_progress
  else if consumer_available ≥ s.consumer_count then
    set_phase_status s .consumer_workgroups Status.complete
  else if consumer_available > 0 then set_phase_status s .consumer_workgroups Status.in_progress
  else s

/-- Network/security inference from observed workgroups (lines 326-332): when any
project workgroup is available or being created, the VPC and the security groups
must exist, so both phases are forced complete and a placeholder VPC is recorded
when none was found directly. -/
def netSecPass (evidence : Bool) (s : MonitorState) : MonitorState :=
  if evidence then
    let s := set_phase_status s .networking Status.complete
    let s := set_phase_status s .security Status.complete
    if s.resources.vpc == none then
      { s with resources := { s.resources with vpc := some "inferred-from-workgroups" } }
    else s
  else s

/-- All-available branch of the workgroup section (lines 334-339). -/
def allWgComplete (s : MonitorState) : MonitorState :=
  set_phase_status (set_phase_status (set_phase_status (set_phase_status s
    .producer_namespace Status.complete)
    .producer_workgroup Status.complete)
    .consumer_namespaces Status.complete)
    .consumer_workgroups Status.complete

/-- Body of the workgroup section run when the `list-workgroups` query returned a
non-empty list (lines 292-374). -/
def wgBlock (s : MonitorState) (l : List WorkgroupRow) : MonitorState :=
  let r0 := { s.resources with
    consumer_workgroups := [], consumer_statuses := []
    producer_workgroup := none, producer_status := none }
  let scan := l.foldl (wgScanStep s.project_name) (r0, 0, 0)
  let s := { s with resources := scan.1 }
  let total_available := scan.2.1
  let total_creating := scan.2.2
  let expected_total := s.consumer_count + 1
  let s := netSecPass (total_available > 0 || total_creating > 0) s
  if total_available ≥ expected_total then allWgComplete s
  else if total_creating > 0 || total_available > 0 then
    wgPhasePass l s
  else s

/-- Workgroup section of `update_deployment_status` (lines 286-374): the
`list-workgroups` query is issued unconditionally every cycle. -/
def stepWorkgroupsT (s : MonitorState) (workgroups : Option (List WorkgroupRow)) :
    MonitorState × List QueryFamily :=
  (match workgroups with
   | some (w :: ws) => wgBlock s (w :: ws)
   | _ => s,
   [QueryFamily.workgroupsQ])

/-- Per-row processing of the endpoint section loop (lines 390-406). -/
def epStep (pname : String) (acc : Resources × Nat × Nat) (ep : EndpointRow) :
    Resources × Nat × Nat :=
  let r := acc.1
  let active := acc.2.1
  let creating := acc.2.2
  match ep.endpointName with
  | some name =>
    if strContains name pname then
      let r := { r with
        endpoint_statuses := dictInsert r.endpoint_statuses name ⟨ep.endpointStatus, ep.address⟩ }
      if ep.endpointStatus == some "ACTIVE" then
        ({ r with vpc_endpoints := r.vpc_endpoints ++ [name] }, active + 1, creating)
      else if ep.endpointStatus == some "CREATING" then (r, active, creating + 1)
      else (r, active, creating)
    else (r, active, creating)
  | none => (r, active, creating)

/-- Body of the endpoint section run when the `list-endpoint-access` query
returned a non-empty list (lines 383-414). -/
def epBlock (s : MonitorState) (l : List EndpointRow) : MonitorState :=
  let r0 := { s.resources with vpc_endpoints := [], endpoint_statuses := [] }
  let scan := l.foldl (epStep s.project_name) (r0, 0, 0)
  let s := { s with resources := scan.1 }
  let active_endpoints := scan.2.1
  let creating_endpoints := scan.2.2
  if creating_endpoints > 0 then set_phase_status s .vpc_endpoints Status.in_progress
  else if active_endpoints ≥ s.consumer_count then
    set_phase_status s .vpc_endpoints Status.complete
  else set_phase_status s .vpc_endpoints Status.pending

/-- Endpoint section of `update_deployment_status` (lines 376-414): the query is
issued only when the consumer-workgroups phase currently reads complete. -/
def stepEndpointsT (s : MonitorState) (endpoints : Option (List EndpointRow)) :
    MonitorState × List QueryFamily :=
  if s.phase_status.get .consumer_workgroups == Status.complete then
    (match endpoints with
     | some (e :: es) => epBlock s (e :: es)
     | _ => s,
     [QueryFamily.endpointsQ])
  else (s, [])

/-- Initial value of the per-state counter dict `state_counts` (lines 478-484). -/
def initStateCounts : List (String × Nat) :=
  [("healthy", 0), ("initial", 0), ("unhealthy", 0), ("draining", 0), ("unavailable", 0)]

/-- Target-health processing (lines 472-510): tally the per-target states, record
them in the resource cache, and resolve the target/health phases; reaching the
expected healthy count also sets the deployment-complete flag. -/
def targetsBlock (s : MonitorState) (targets : List String) : MonitorState :=
  let state_counts := targets.foldl
    (fun cnts st => dictInsert cnts st ((dictGet cnts st).getD 0 + 1)) initStateCounts
  let healthy := (dictGet state_counts "healthy").getD 0
  let initial := (dictGet state_counts "initial").getD 0
  let total := targets.length
  let s := { s with resources :=
    { s.resources with healthy_targets := healthy, total_targets := total
                       target_states := state_counts } }
  let expected_targets := s.consumer_count * 3
  if healthy ≥ expected_targets then
    { set_phase_status (set_phase_status s .targets Status.complete) .health Status.complete with
      deployment_complete := true }
  else if total > 0 then
    let s := set_phase_status s .targets Status.in_progress
    if healthy > 0 || initial > 0 then set_phase_status s .health Status.in_progress else s
  else s

/-- Load-balancer state recording and phase resolution (lines 434-447): record
the observed state and DNS name, then resolve the NLB phase from the state code. -/
def nlbAssign (s : MonitorState) (nlb0 : NlbRow) : MonitorState :=
  let nlb_state := nlb0.stateCode
  let nlb_dns := nlb0.dnsName
  let s := { s with resources :=
    { s.resources with nlb_state := some nlb_state, nlb_dns := nlb_dns } }
  if nlb_state == "active" then
    set_phase_status { s with resources := { s.resources with nlb := some "active" } }
      .nlb Status.complete
  else if nlb_state == "provisioning" || nlb_state == "active_impaired" then
    set_phase_status { s with resources := { s.resources with nlb := some nlb_state } }
      .nlb Status.in_progress
  else s

/-- Target-group/target-health tail of the NLB section (lines 449-517), reached
once a load balancer was found: when a target group matched, process the health
poll; otherwise mark target registration in progress when the NLB is active. -/
def tgSectionT (s : MonitorState) (tgs : Option (List String))
    (target_health : Option (List String)) (t2 : List QueryFamily) :
    MonitorState × List QueryFamily :=
  match tgs with
  | some (_ :: _) =>
    (match target_health with
     | some targets => targetsBlock s targets
     | none => s,
     t2 ++ [QueryFamily.targetHealthQ])
  | _ =>
    (if s.resources.nlb == some "active" then
       set_phase_status s .targets Status.in_progress
     else s,
     t2)

/-- NLB/target section of `update_deployment_status` (lines 416-517): only
entered once the endpoints phase reads complete; exact-name load-balancer query
first with a substring fallback, then the same pattern for target groups, then
the target-health query. -/
def stepNlbT (s : MonitorState)
    (nlbs_exact nlbs_contains : Option (List NlbRow))
    (tgs_exact tgs_contains : Option (List String))
    (target_health : Option (List String)) : MonitorState × List QueryFamily :=
  if s.phase_status.get .vpc_endpoints == Status.complete then
    let nlbs := if truthy nlbs_exact then nlbs_exact else nlbs_contains
    let t1 := if truthy nlbs_exact then [QueryFamily.nlbExactQ]
              else [QueryFamily.nlbExactQ, QueryFamily.nlbContainsQ]
    match nlbs with
    | some (nlb0 :: _) =>
      let s := nlbAssign s nlb0
      let tgs := if truthy tgs_exact then tgs_exact else tgs_contains
      let t2 := if truthy tgs_exact then [QueryFamily.tgExactQ]
                else [QueryFamily.tgExactQ, QueryFamily.tgContainsQ]
      let p := tgSectionT s tgs target_health t2
      (p.1, t1 ++ p.2)
    | _ => (s, t1)
  else (s, [])

/-- Current-phase pointer (lines 519-534): first in-progress phase, else first
pending phase, else the terminal index. -/
def stepCurrentPhase (s : MonitorState) : MonitorState :=
  match PHASES.findIdx? (fun k => s.phase_status.get k == Status.in_progress) with
  | some i => { s with current_phase_index := i }
  | none =>
    match PHASES.findIdx? (fun k => s.phase_status.get k == Status.pending) with
    | some i => { s with current_phase_index := i }
    | none => { s with current_phase_index := PHASES.length - 1 }

/-- Poll-indicator bump at the top of `update_deployment_status` (lines 250-253). -/
def pollBump (s : MonitorState) : MonitorState :=
  { s with poll_indicator :=
      if s.deployment_complete then s.poll_indicator else (s.poll_indicator + 1) % 4 }

/-- One full reconciliation cycle together with the list of query families it
invoked, in invocation order. -/
def stepCycleT (s : MonitorState) (q : QueryEnv) : MonitorState × List QueryFamily :=
  let p1 := stepVpcT (pollBump s) q.vpcs q.subnets
  let p2 := stepWorkgroupsT p1.1 q.workgroups
  let p3 := stepEndpointsT p2.1 q.endpoints
  let p4 := stepNlbT p3.1 q.nlbs_exact q.nlbs_contains q.tgs_exact q.tgs_contains q.target_health
  (stepCurrentPhase p4.1, p1.2 ++ p2.2 ++ p3.2 ++ p4.2)

/-- Translation of `update_deployment_status`: the state after one cycle. -/
def update_deployment_status (s : MonitorState) (q : QueryEnv) : MonitorState :=
  (stepCycleT s q).1

/-- Query families actually invoked during one cycle. -/
def queriesInvoked (s : MonitorState) (q : QueryEnv) : List QueryFamily :=
  (stepCycleT s q).2

/-- Intermediate state at the moment the endpoint-section guard (line 377) is
evaluated: after the VPC and workgroup sections of the cycle. -/
def stateAtEndpointCheck (s : MonitorState) (q : QueryEnv) : MonitorState :=
  (stepWorkgroupsT (stepVpcT (pollBump s) q.vpcs q.subnets).1 q.workgroups).1

/-- Iterate reconciliation cycles over a list of per-cycle query results. -/
def runCycles (s : MonitorState) (qs : List QueryEnv) : MonitorState :=
  qs.foldl update_deployment_status s

/-- Adaptive sleep interval chosen by `background_updater` after a cycle
(lines 548-562), in seconds. -/
def poll_interval (s : MonitorState) : ℚ :=
  if s.deployment_complete then 10
  else if s.phase_status.get .targets == Status.in_progress
       || s.phase_status.get .health == Status.in_progress then 1
  else if s.phase_status.get .nlb == Status.in_progress then 3 / 2
  else if PHASES.any (fun k => s.phase_status.get k == Status.in_progress) then 2
  else 3

/-- Value the render loop reads for the key `vpc_state` (line 771): no code
path ever writes a `vpc_state` key into the resource cache, so the lookup always
yields `None`. -/
def vpc_state_entry (_ : Resources) : Option String := none

/-- Value the teardown countdown reads for the key `vpc_id` (line 876): the
cache key used by the reconciler is `vpc`, and no code path writes `vpc_id`, so
the lookup always yields `None`. -/
def vpc_id_entry (_ : Resources) : Option String := none

/-- Teardown detection of the render loop (lines 766-772): any resource observed
in a deleting/deleted state flips the frame into teardown mode. -/
def teardown_detected (r : Resources) : Bool :=
  (r.producer_status == some "DELETING" || r.producer_status == some "DELETED")
  || r.consumer_statuses.any (fun p => p.2 == "DELETING" || p.2 == "DELETED")
  || r.nlb_state == some "deleting"
  || vpc_state_entry r == some "deleting"

/-- Count of still-existing resources used for the teardown countdown
(lines 866-877). -/
def existing_resources (r : Resources) : Nat :=
  let n := 0
  let n :=
    if r.producer_status != some "DELETING" && r.producer_status != some "DELETED"
       && r.producer_status != none then n + 2
    else n
  let n :=
    if r.consumer_statuses.isEmpty then n
    else n + (r.consumer_statuses.filter
      (fun p => !(p.2 == "DELETING" || p.2 == "DELETED"))).length
  let n :=
    if r.nlb_state != some "deleting" && r.nlb_state != none then n + 2
    else n
  let n := if vpc_id_entry r != none then n + 2 else n
  n

/-- Which formula the progress bar uses: a countdown over still-existing
resources during teardown, or a count of complete phases otherwise
(lines 862-884). -/
inductive ProgressMode where
  | countdown (existing total : Nat)
  | countup (completed total : Nat)
deriving DecidableEq, Repr

/-- Progress computation of the render loop, keeping the integer inputs of the
percentage formula. -/
def display_progress (r : Resources) (ps : PhaseMap Status) (teardown : Bool) : ProgressMode :=
  if teardown then ProgressMode.countdown (existing_resources r) PHASES.length
  else ProgressMode.countup (PHASES.countP (fun k => ps.get k == Status.complete)) PHASES.length

/-- Published per-frame view assembled by the render loop: the teardown flag, the
frame-local copy of the deployment-complete flag, and the progress formula. -/
structure FrameView where
  teardown_mode : Bool
  deployment_complete : Bool
  progress : ProgressMode
deriving DecidableEq, Repr

/-- Snapshot a frame of the render loop (lines 757-773 and 862-884): the teardown
flag is computed from the resource cache, and, when set, overrides the local copy
of the deployment-complete flag and switches the progress bar to the countdown. -/
def render_frame (s : MonitorState) : FrameView :=
  let teardown_mode := teardown_detected s.resources
  let deployment_complete := if teardown_mode then false else s.deployment_complete
  { teardown_mode := teardown_mode
    deployment_complete := deployment_complete
    progress := display_progress s.resources s.phase_status teardown_mode }

/-- Sticky flags and statuses agree: the sticky flag of a phase is set exactly when its
status is complete.  Holds for the initial state and is preserved by every cycle. -/
def phase_consistent (s : MonitorState) : Prop :=
  ∀ k, s.phase_complete_sticky.get k = true ↔ s.phase_status.get k = Status.complete

theorem initState_phase_consistent (pname : String) (count : Nat) :
    phase_consistent (initState pname count) := by
  intro k; cases k <;> simp [initState, PhaseMap.const, PhaseMap.get]

namespace SetPhase

variable (s : MonitorState) (k k' : PhaseKey) (st : Status)

theorem deployment_complete_eq :
    (set_phase_status s k st).deployment_complete = s.deployment_complete := by
  unfold set_phase_status; split <;> rfl

theorem resources_eq : (set_phase_status s k st).resources = s.resources := by
  unfold set_phase_status; split <;> rfl

theorem consumer_count_eq : (set_phase_status s k st).consumer_count = s.consumer_count := by
  unfold set_phase_status; split <;> rfl

theorem project_name_eq : (set_phase_status s k st).project_name = s.project_name := by
  unfold set_phase_status; split <;> rfl

theorem status_ne (h : k' ≠ k) :
    (set_phase_status s k st).phase_status.get k' = s.phase_status.get k' := by
  unfold set_phase_status
  split
  · rfl
  · exact PhaseMap.get_set_ne _ h _

theorem sticky_ne (h : k' ≠ k) :
    (set_phase_status s k st).phase_complete_sticky.get k' = s.phase_complete_sticky.get k' := by
  unfold set_phase_status
  split
  · rfl
  · dsimp only
    split
    · exact PhaseMap.get_set_ne _ h _
    · rfl

theorem status_of_sticky (h : s.phase_complete_sticky.get k' = true) :
    (set_phase_status s k st).phase_status.get k' = s.phase_status.get k' := by
  by_cases hk : k' = k
  · subst hk
    unfold set_phase_status
    simp [h]
  · exact status_ne s k k' st hk

theorem sticky_mono (h : s.phase_complete_sticky.get k' = true) :
    (set_phase_status s k st).phase_complete_sticky.get k' = true := by
  by_cases hk : k' = k
  · subst hk
    unfold set_phase_status
    simp [h]
  · rw [sticky_ne s k k' st hk]; exact h

theorem status_complete (h : phase_consistent s) :
    (set_phase_status s k Status.complete).phase_status.get k = Status.complete := by
  unfold set_phase_status
  split
  · next hs => exact (h k).mp hs
  · exact PhaseMap.get_set_same _ _ _

theorem sticky_complete :
    (set_phase_status s k Status.complete).phase_complete_sticky.get k = true := by
  unfold set_phase_status
  split
  · next hs => simpa using hs
  · simp [PhaseMap.get_set_same]

theorem status_not_sticky (h : s.phase_complete_sticky.get k = false) :
    (set_phase_status s k st).phase_status.get k = st := by
  unfold set_phase_status
  rw [h]
  exact PhaseMap.get_set_same _ _ _

theorem sticky_not_complete (h : s.phase_complete_sticky.get k = false)
    (hst : st ≠ Status.complete) :
    (set_phase_status s k st).phase_complete_sticky.get k = false := by
  unfold set_phase_status
  rw [h]
  simp only [Bool.false_eq_true, if_false]
  rw [if_neg (by simpa using hst)]
  exact h

theorem consistent (h : phase_consistent s) : phase_consistent (set_phase_status s k st) := by
  intro k'
  by_cases hk : k' = k
  · subst hk
    unfold set_phase_status
    split
    · next hs => exact h k'
    · next hs =>
      dsimp only
      constructor
      · intro hsticky
        by_cases hc : st = Status.complete
        · rw [hc, PhaseMap.get_set_same]
        · rw [if_neg (by simpa using hc)] at hsticky
          rw [hsticky] at hs
          exact absurd rfl hs
      · intro hstatus
        rw [PhaseMap.get_set_same] at hstatus
        rw [hstatus]
        rw [if_pos (by simp)]
        exact PhaseMap.get_set_same _ _ _
  · rw [status_ne s k k' st hk, sticky_ne s k k' st hk]
    exact h k'

end SetPhase

theorem SetPhase.sticky2 (s : MonitorState) (k1 k2 k : PhaseKey) (st1 st2 : Status)
    (h : s.phase_complete_sticky.get k = true) :
    (set_phase_status (set_phase_status s k1 st1) k2 st2).phase_status.get k =
      s.phase_status.get k ∧
    (set_phase_status (set_phase_status s k1 st1) k2 st2).phase_complete_sticky.get k = true :=
  ⟨(SetPhase.status_of_sticky _ k2 k st2 (SetPhase.sticky_mono s k1 k st1 h)).trans
      (SetPhase.status_of_sticky s k1 k st1 h),
   SetPhase.sticky_mono _ k2 k st2 (SetPhase.sticky_mono s k1 k st1 h)⟩

/-- Predicate matched by the first workgroup pass when counting AVAILABLE rows. -/
def availRow (pname : String) (w : WorkgroupRow) : Bool :=
  strContains w.workgroupName pname && w.status == "AVAILABLE"

/-- Predicate matched by the first workgroup pass when counting CREATING/MODIFYING rows. -/
def creatingRow (pname : String) (w : WorkgroupRow) : Bool :=
  strContains w.workgroupName pname && (w.status == "CREATING" || w.status == "MODIFYING")

theorem wgScan_avail_eq (pname : String) :
    ∀ (l : List WorkgroupRow) (acc : Resources × Nat × Nat),
      (l.foldl (wgScanStep pname) acc).2.1 = acc.2.1 + l.countP (availRow pname) := by
  intro l
  induction l with
  | nil => intro acc; simp
  | cons w t ih =>
    intro acc
    rw [List.foldl_cons, ih, List.countP_cons]
    unfold wgScanStep availRow
    dsimp only
    split
    · next hc =>
      simp only [hc, Bool.true_and]
      split
      · omega
      · next ha => simp only [Bool.not_eq_true] at ha; simp [ha]
    · next hc =>
      simp only [Bool.not_eq_true] at hc
      simp [hc]

theorem wgScan_creating_eq (pname : String) :
    ∀ (l : List WorkgroupRow) (acc : Resources × Nat × Nat),
      (l.foldl (wgScanStep pname) acc).2.2 = acc.2.2 + l.countP (creatingRow pname) := by
  intro l
  induction l with
  | nil => intro acc; simp
  | cons w t ih =>
    intro acc
    rw [List.foldl_cons, ih, List.countP_cons]
    unfold wgScanStep creatingRow
    dsimp only
    split
    · next hc =>
      simp only [hc, Bool.true_and]
      split
      · omega
      · next ha => simp only [Bool.not_eq_true] at ha; simp [ha]
    · next hc =>
      simp only [Bool.not_eq_true] at hc
      simp [hc]

theorem wgPhaseStep_frame (acc : MonitorState × Nat × Nat) (w : WorkgroupRow) (k : PhaseKey)
    (h1 : k ≠ .producer_namespace) (h2 : k ≠ .producer_workgroup)
    (h3 : k ≠ .consumer_namespaces) :
    (wgPhaseStep acc w).1.phase_status.get k = acc.1.phase_status.get k ∧
    (wgPhaseStep acc w).1.phase_complete_sticky.get k = acc.1.phase_complete_sticky.get k := by
  unfold wgPhaseStep
  dsimp only
  split <;> [skip; skip] <;>
    first
    | (split
       · exact ⟨by rw [SetPhase.status_ne _ _ _ _ h2, SetPhase.status_ne _ _ _ _ h1],
                by rw [SetPhase.sticky_ne _ _ _ _ h2, SetPhase.sticky_ne _ _ _ _ h1]⟩
       · split
         · exact ⟨by rw [SetPhase.status_ne _ _ _ _ h2, SetPhase.status_ne _ _ _ _ h1],
                  by rw [SetPhase.sticky_ne _ _ _ _ h2, SetPhase.sticky_ne _ _ _ _ h1]⟩
         · exact ⟨rfl, rfl⟩)
    | (split
       · exact ⟨SetPhase.status_ne _ _ _ _ h3, SetPhase.sticky_ne _ _ _ _ h3⟩
       · split
         · exact ⟨SetPhase.status_ne _ _ _ _ h3, SetPhase.sticky_ne _ _ _ _ h3⟩
         · exact ⟨rfl, rfl⟩)

theorem wgPhaseFold_frame (l : List WorkgroupRow) (k : PhaseKey)
    (h1 : k ≠ .producer_namespace) (h2 : k ≠ .producer_workgroup)
    (h3 : k ≠ .consumer_namespaces) :
    ∀ acc : MonitorState × Nat × Nat,
      (l.foldl wgPhaseStep acc).1.phase_status.get k = acc.1.phase_status.get k ∧
      (l.foldl wgPhaseStep acc).1.phase_complete_sticky.get k = acc.1.phase_complete_sticky.get k := by
  induction l with
  | nil => intro acc; exact ⟨rfl, rfl⟩
  | cons w t ih =>
    intro acc
    rw [List.foldl_cons]
    obtain ⟨ihs, ihk⟩ := ih (wgPhaseStep acc w)
    obtain ⟨hs, hk⟩ := wgPhaseStep_frame acc w k h1 h2 h3
    exact ⟨ihs.trans hs, ihk.trans hk⟩

/-- Per-key half of `phase_consistent`: a set sticky flag guarantees a complete status. -/
def sticky_sound_at (s : MonitorState) (k : PhaseKey) : Prop :=
  s.phase_complete_sticky.get k = true → s.phase_status.get k = Status.complete

theorem SetPhase.status_complete_of (s : MonitorState) (k : PhaseKey)
    (h : sticky_sound_at s k) :
    (set_phase_status s k Status.complete).phase_status.get k = Status.complete := by
  unfold set_phase_status
  split
  · next hs => exact h hs
  · exact PhaseMap.get_set_same _ _ _

theorem SetPhase.status_complete_pres (s : MonitorState) (k : PhaseKey)
    (h : s.phase_status.get k = Status.complete) :
    (set_phase_status s k Status.complete).phase_status.get k = Status.complete := by
  unfold set_phase_status
  split
  · exact h
  · exact PhaseMap.get_set_same _ _ _

theorem SetPhase.sound_at (s : MonitorState) (k k' : PhaseKey) (st : Status)
    (h : sticky_sound_at s k') : sticky_sound_at (set_phase_status s k st) k' := by
  by_cases hk : k' = k
  · subst hk
    intro hs
    unfold set_phase_status at hs ⊢
    by_cases h0 : s.phase_complete_sticky.get k' = true
    · rw [if_pos h0] at hs ⊢
      exact h hs
    · rw [if_neg h0] at hs ⊢
      dsimp only at hs ⊢
      by_cases hc : st = Status.complete
      · rw [hc]; exact PhaseMap.get_set_same _ _ _
      · rw [if_neg (by simpa using hc)] at hs
        exact absurd (h hs) (by simp_all)
  · intro hs
    rw [SetPhase.sticky_ne _ _ _ _ hk] at hs
    rw [SetPhase.status_ne _ _ _ _ hk]
    exact h hs

theorem wgPhaseStep_sticky (acc : MonitorState × Nat × Nat) (w : WorkgroupRow) (k : PhaseKey)
    (h : acc.1.phase_complete_sticky.get k = true) :
    (wgPhaseStep acc w).1.phase_status.get k = acc.1.phase_status.get k ∧
    (wgPhaseStep acc w).1.phase_complete_sticky.get k = true := by
  unfold wgPhaseStep
  dsimp only
  split
  · split
    · exact ⟨by rw [SetPhase.status_of_sticky _ _ _ _ (SetPhase.sticky_mono _ _ _ _ h),
                     SetPhase.status_of_sticky _ _ _ _ h],
             SetPhase.sticky_mono _ _ _ _ (SetPhase.sticky_mono _ _ _ _ h)⟩
    · split
      · exact ⟨by rw [SetPhase.status_of_sticky _ _ _ _ (SetPhase.sticky_mono _ _ _ _ h),
                       SetPhase.status_of_sticky _ _ _ _ h],
               SetPhase.sticky_mono _ _ _ _ (SetPhase.sticky_mono _ _ _ _ h)⟩
      · exact ⟨rfl, h⟩
  · split
    · exact ⟨SetPhase.status_of_sticky _ _ _ _ h, SetPhase.sticky_mono _ _ _ _ h⟩
    · split
      · exact ⟨SetPhase.status_of_sticky _ _ _ _ h, SetPhase.sticky_mono _ _ _ _ h⟩
      · exact ⟨rfl, h⟩

theorem wgPhaseFold_sticky (l : List WorkgroupRow) (k : PhaseKey) :
    ∀ acc : MonitorState × Nat × Nat, acc.1.phase_complete_sticky.get k = true →
      (l.foldl wgPhaseStep acc).1.phase_status.get k = acc.1.phase_status.get k ∧
      (l.foldl wgPhaseStep acc).1.phase_complete_sticky.get k = true := by
  induction l with
  | nil => intro acc h; exact ⟨rfl, h⟩
  | cons w t ih =>
    intro acc h
    rw [List.foldl_cons]
    obtain ⟨hs, hk⟩ := wgPhaseStep_sticky acc w k h
    obtain ⟨ihs, ihk⟩ := ih (wgPhaseStep acc w) hk
    exact ⟨ihs.trans hs, ihk⟩

theorem wgPhaseStep_consistent (acc : MonitorState × Nat × Nat) (w : WorkgroupRow)
    (h : phase_consistent acc.1) : phase_consistent (wgPhaseStep acc w).1 := by
  unfold wgPhaseStep
  dsimp only
  split
  · split
    · exact SetPhase.consistent _ _ _ (SetPhase.consistent _ _ _ h)
    · split
      · exact SetPhase.consistent _ _ _ (SetPhase.consistent _ _ _ h)
      · exact h
  · split
    · exact SetPhase.consistent _ _ _ h
    · split
      · exact SetPhase.consistent _ _ _ h
      · exact h

theorem wgPhaseFold_consistent (l : List WorkgroupRow) :
    ∀ acc : MonitorState × Nat × Nat, phase_consistent acc.1 →
      phase_consistent (l.foldl wgPhaseStep acc).1 := by
  induction l with
  | nil => intro acc h; exact h
  | cons w t ih =>
    intro acc h
    rw [List.foldl_cons]
    exact ih _ (wgPhaseStep_consistent acc w h)

theorem wgPhaseStep_dc (acc : MonitorState × Nat × Nat) (w : WorkgroupRow) :
    (wgPhaseStep acc w).1.deployment_complete = acc.1.deployment_complete := by
  unfold wgPhaseStep
  dsimp only
  split
  · split
    · rw [SetPhase.deployment_complete_eq, SetPhase.deployment_complete_eq]
    · split
      · rw [SetPhase.deployment_complete_eq, SetPhase.deployment_complete_eq]
      · rfl
  · split
    · rw [SetPhase.deployment_complete_eq]
    · split
      · rw [SetPhase.deployment_complete_eq]
      · rfl

theorem wgPhaseFold_dc (l : List WorkgroupRow) :
    ∀ acc : MonitorState × Nat × Nat,
      (l.foldl wgPhaseStep acc).1.deployment_complete = acc.1.deployment_complete := by
  induction l with
  | nil => intro acc; rfl
  | cons w t ih =>
    intro acc
    rw [List.foldl_cons]
    rw [ih (wgPhaseStep acc w), wgPhaseStep_dc]

/-- List shape for the producer scenarios: every row is either the given producer
row or a row whose lowercased name does not contain "producer". -/
def onlyProducerRow (pr : WorkgroupRow) (l : List WorkgroupRow) : Prop :=
  ∀ r ∈ l, r = pr ∨ strContains (lowerStr r.workgroupName) "producer" = false

theorem wgPhaseStep_consumer_frame (acc : MonitorState × Nat × Nat) (w : WorkgroupRow)
    (k : PhaseKey) (hw : strContains (lowerStr w.workgroupName) "producer" = false)
    (hk : k ≠ .consumer_namespaces) :
    (wgPhaseStep acc w).1.phase_status.get k = acc.1.phase_status.get k ∧
    (wgPhaseStep acc w).1.phase_complete_sticky.get k = acc.1.phase_complete_sticky.get k := by
  unfold wgPhaseStep
  dsimp only
  rw [if_neg (by simp [hw])]
  split
  · exact ⟨SetPhase.status_ne _ _ _ _ hk, SetPhase.sticky_ne _ _ _ _ hk⟩
  · split
    · exact ⟨SetPhase.status_ne _ _ _ _ hk, SetPhase.sticky_ne _ _ _ _ hk⟩
    · exact ⟨rfl, rfl⟩

theorem wgPhaseFold_creating_pres (nm : String)
    (hp : strContains (lowerStr nm) "producer" = true) :
    ∀ (l : List WorkgroupRow) (acc : MonitorState × Nat × Nat),
      onlyProducerRow ⟨nm, "CREATING"⟩ l →
      (acc.1.phase_status.get .producer_namespace = Status.complete ∧
       acc.1.phase_status.get .producer_workgroup = Status.in_progress ∧
       acc.1.phase_complete_sticky.get .producer_workgroup = false) →
      (l.foldl wgPhaseStep acc).1.phase_status.get .producer_namespace = Status.complete ∧
      (l.foldl wgPhaseStep acc).1.phase_status.get .producer_workgroup = Status.in_progress ∧
      (l.foldl wgPhaseStep acc).1.phase_complete_sticky.get .producer_workgroup = false := by
  intro l
  induction l with
  | nil => intro acc _ h; simpa using h
  | cons w t ih =>
    intro acc hshape ⟨hpn, hpw, hsk⟩
    rw [List.foldl_cons]
    apply ih _ (fun r hr => hshape r (List.mem_cons_of_mem w hr))
    rcases hshape w (List.mem_cons_self w t) with hw | hw
    · subst hw
      unfold wgPhaseStep
      dsimp only
      rw [if_pos hp, if_pos (by rfl)]
      refine ⟨?_, ?_, ?_⟩
      · rw [SetPhase.status_ne _ _ _ _ (by simp),
            SetPhase.status_complete_pres _ _ hpn]
      · have hsk1 : (set_phase_status acc.1 .producer_namespace
            Status.complete).phase_complete_sticky.get .producer_workgroup = false := by
          rw [SetPhase.sticky_ne _ _ _ _ (by simp)]; exact hsk
        rw [SetPhase.status_not_sticky _ _ _ hsk1]
      · have hsk1 : (set_phase_status acc.1 .producer_namespace
            Status.complete).phase_complete_sticky.get .producer_workgroup = false := by
          rw [SetPhase.sticky_ne _ _ _ _ (by simp)]; exact hsk
        exact SetPhase.sticky_not_complete _ _ _ hsk1 (by simp)
    · obtain ⟨hfs, hfk⟩ := wgPhaseStep_consumer_frame acc w .producer_namespace hw (by simp)
      obtain ⟨hgs, hgk⟩ := wgPhaseStep_consumer_frame acc w .producer_workgroup hw (by simp)
      exact ⟨hfs.trans hpn, hgs.trans hpw, hgk.trans hsk⟩

theorem wgPhaseFold_creating (nm : String)
    (hp : strContains (lowerStr nm) "producer" = true) :
    ∀ (l : List WorkgroupRow) (acc : MonitorState × Nat × Nat),
      onlyProducerRow ⟨nm, "CREATING"⟩ l →
      (⟨nm, "CREATING"⟩ : WorkgroupRow) ∈ l →
      sticky_sound_at acc.1 .producer_namespace →
      acc.1.phase_complete_sticky.get .producer_workgroup = false →
      (l.foldl wgPhaseStep acc).1.phase_status.get .producer_namespace = Status.complete ∧
      (l.foldl wgPhaseStep acc).1.phase_status.get .producer_workgroup = Status.in_progress ∧
      (l.foldl wgPhaseStep acc).1.phase_complete_sticky.get .producer_workgroup = false := by
  intro l
  induction l with
  | nil => intro acc _ hmem; simp at hmem
  | cons w t ih =>
    intro acc hshape hmem hsound hsk
    rw [List.foldl_cons]
    by_cases hw : w = (⟨nm, "CREATING"⟩ : WorkgroupRow)
    · -- the producer row itself: establish the target and preserve it over the tail
      apply wgPhaseFold_creating_pres nm hp t _
        (fun r hr => hshape r (List.mem_cons_of_mem w hr))
      subst hw
      unfold wgPhaseStep
      dsimp only
      rw [if_pos hp, if_pos (by rfl)]
      have hsk1 : (set_phase_status acc.1 .producer_namespace
          Status.complete).phase_complete_sticky.get .producer_workgroup = false := by
        rw [SetPhase.sticky_ne _ _ _ _ (by simp)]; exact hsk
      refine ⟨?_, ?_, ?_⟩
      · rw [SetPhase.status_ne _ _ _ _ (by simp),
            SetPhase.status_complete_of _ _ hsound]
      · rw [SetPhase.status_not_sticky _ _ _ hsk1]
      · exact SetPhase.sticky_not_complete _ _ _ hsk1 (by simp)
    · -- a consumer-named row: hypotheses survive, recurse on the tail
      have hmem' : (⟨nm, "CREATING"⟩ : WorkgroupRow) ∈ t := by
        rcases List.mem_cons.mp hmem with h | h
        · exact absurd h.symm hw
        · exact h
      have hw' : strContains (lowerStr w.workgroupName) "producer" = false := by
        rcases hshape w (List.mem_cons_self w t) with h | h
        · exact absurd h hw
        · exact h
      obtain ⟨hfs, hfk⟩ := wgPhaseStep_consumer_frame acc w .producer_namespace hw' (by simp)
      obtain ⟨hgs, hgk⟩ := wgPhaseStep_consumer_frame acc w .producer_workgroup hw' (by simp)
      refine ih _ (fun r hr => hshape r (List.mem_cons_of_mem w hr)) hmem' ?_ ?_
      · intro hx
        rw [hfk] at hx
        rw [hfs]
        exact hsound hx
      · rw [hgk]
        exact hsk

theorem wgPhaseFold_available_pres (nm : String)
    (hp : strContains (lowerStr nm) "producer" = true) :
    ∀ (l : List WorkgroupRow) (acc : MonitorState × Nat × Nat),
      onlyProducerRow ⟨nm, "AVAILABLE"⟩ l →
      (acc.1.phase_status.get .producer_namespace = Status.complete ∧
       acc.1.phase_status.get .producer_workgroup = Status.complete) →
      (l.foldl wgPhaseStep acc).1.phase_status.get .producer_namespace = Status.complete ∧
      (l.foldl wgPhaseStep acc).1.phase_status.get .producer_workgroup = Status.complete := by
  intro l
  induction l with
  | nil => intro acc _ h; simpa using h
  | cons w t ih =>
    intro acc hshape ⟨hpn, hpw⟩
    rw [List.foldl_cons]
    apply ih _ (fun r hr => hshape r (List.mem_cons_of_mem w hr))
    rcases hshape w (List.mem_cons_self w t) with hw | hw
    · subst hw
      unfold wgPhaseStep
      dsimp only
      rw [if_pos hp, if_neg (by simp), if_pos (by rfl)]
      constructor
      · rw [SetPhase.status_ne _ _ _ _ (by simp),
            SetPhase.status_complete_pres _ _ hpn]
      · apply SetPhase.status_complete_pres
        rw [SetPhase.status_ne _ _ _ _ (by simp)]
        exact hpw
    · obtain ⟨hfs, hfk⟩ := wgPhaseStep_consumer_frame acc w .producer_namespace hw (by simp)
      obtain ⟨hgs, hgk⟩ := wgPhaseStep_consumer_frame acc w .producer_workgroup hw (by simp)
      exact ⟨hfs.trans hpn, hgs.trans hpw⟩

theorem wgPhaseFold_available (nm : String)
    (hp : strContains (lowerStr nm) "producer" = true) :
    ∀ (l : List WorkgroupRow) (acc : MonitorState × Nat × Nat),
      onlyProducerRow ⟨nm, "AVAILABLE"⟩ l →
      (⟨nm, "AVAILABLE"⟩ : WorkgroupRow) ∈ l →
      sticky_sound_at acc.1 .producer_namespace →
      sticky_sound_at acc.1 .producer_workgroup →
      (l.foldl wgPhaseStep acc).1.phase_status.get .producer_namespace = Status.complete ∧
      (l.foldl wgPhaseStep acc).1.phase_status.get .producer_workgroup = Status.complete := by
  intro l
  induction l with
  | nil => intro acc _ hmem; simp at hmem
  | cons w t ih =>
    intro acc hshape hmem hsound1 hsound2
    rw [List.foldl_cons]
    by_cases hw : w = (⟨nm, "AVAILABLE"⟩ : WorkgroupRow)
    · apply wgPhaseFold_available_pres nm hp t _
        (fun r hr => hshape r (List.mem_cons_of_mem w hr))
      subst hw
      unfold wgPhaseStep
      dsimp only
      rw [if_pos hp, if_neg (by simp), if_pos (by rfl)]
      constructor
      · rw [SetPhase.status_ne _ _ _ _ (by simp),
            SetPhase.status_complete_of _ _ hsound1]
      · exact SetPhase.status_complete_of _ _
          (SetPhase.sound_at _ _ _ _ hsound2)
    · have hmem' : (⟨nm, "AVAILABLE"⟩ : WorkgroupRow) ∈ t := by
        rcases List.mem_cons.mp hmem with h | h
        · exact absurd h.symm hw
        · exact h
      have hw' : strContains (lowerStr w.workgroupName) "producer" = false := by
        rcases hshape w (List.mem_cons_self w t) with h | h
        · exact absurd h hw
        · exact h
      obtain ⟨hfs, hfk⟩ := wgPhaseStep_consumer_frame acc w .producer_namespace hw' (by simp)
      obtain ⟨hgs, hgk⟩ := wgPhaseStep_consumer_frame acc w .producer_workgroup hw' (by simp)
      refine ih _ (fun r hr => hshape r (List.mem_cons_of_mem w hr)) hmem' ?_ ?_
      · intro hx
        rw [hfk] at hx
        rw [hfs]
        exact hsound1 hx
      · intro hx
        rw [hgk] at hx
        rw [hgs]
        exact hsound2 hx

theorem netSecPass_frame (b : Bool) (s : MonitorState) (k : PhaseKey)
    (h1 : k ≠ .networking) (h2 : k ≠ .security) :
    (netSecPass b s).phase_status.get k = s.phase_status.get k ∧
    (netSecPass b s).phase_complete_sticky.get k = s.phase_complete_sticky.get k := by
  unfold netSecPass
  dsimp only
  split
  · split
    · exact ⟨by rw [SetPhase.status_ne _ _ _ _ h2, SetPhase.status_ne _ _ _ _ h1],
             by rw [SetPhase.sticky_ne _ _ _ _ h2, SetPhase.sticky_ne _ _ _ _ h1]⟩
    · exact ⟨by rw [SetPhase.status_ne _ _ _ _ h2, SetPhase.status_ne _ _ _ _ h1],
             by rw [SetPhase.sticky_ne _ _ _ _ h2, SetPhase.sticky_ne _ _ _ _ h1]⟩
  · exact ⟨rfl, rfl⟩

theorem netSecPass_sticky (b : Bool) (s : MonitorState) (k : PhaseKey)
    (h : s.phase_complete_sticky.get k = true) :
    (netSecPass b s).phase_status.get k = s.phase_status.get k ∧
    (netSecPass b s).phase_complete_sticky.get k = true := by
  unfold netSecPass
  dsimp only
  split
  · split
    · exact ⟨by rw [SetPhase.status_of_sticky _ _ _ _ (SetPhase.sticky_mono _ _ _ _ h),
                     SetPhase.status_of_sticky _ _ _ _ h],
             SetPhase.sticky_mono _ _ _ _ (SetPhase.sticky_mono _ _ _ _ h)⟩
    · exact ⟨by rw [SetPhase.status_of_sticky _ _ _ _ (SetPhase.sticky_mono _ _ _ _ h),
                     SetPhase.status_of_sticky _ _ _ _ h],
             SetPhase.sticky_mono _ _ _ _ (SetPhase.sticky_mono _ _ _ _ h)⟩
  · exact ⟨rfl, h⟩

theorem netSecPass_consistent (b : Bool) (s : MonitorState) (h : phase_consistent s) :
    phase_consistent (netSecPass b s) := by
  unfold netSecPass
  dsimp only
  split
  · split
    · exact SetPhase.consistent _ _ _ (SetPhase.consistent _ _ _ h)
    · exact SetPhase.consistent _ _ _ (SetPhase.consistent _ _ _ h)
  · exact h

theorem netSecPass_dc (b : Bool) (s : MonitorState) :
    (netSecPass b s).deployment_complete = s.deployment_complete := by
  unfold netSecPass
  dsimp only
  split
  · split
    · rw [SetPhase.deployment_complete_eq, SetPhase.deployment_complete_eq]
    · rw [SetPhase.deployment_complete_eq, SetPhase.deployment_complete_eq]
  · rfl

theorem netSecPass_network (s : MonitorState)
    (h1 : sticky_sound_at s .networking) (h2 : sticky_sound_at s .security) :
    (netSecPass true s).phase_status.get .networking = Status.complete ∧
    (netSecPass true s).phase_status.get .security = Status.complete := by
  unfold netSecPass
  dsimp only
  rw [if_pos rfl]
  split
  · constructor
    · rw [SetPhase.status_ne _ _ _ _ (by simp), SetPhase.status_complete_of _ _ h1]
    · rw [SetPhase.status_complete_of _ _ (SetPhase.sound_at _ _ _ _ h2)]
  · constructor
    · rw [SetPhase.status_ne _ _ _ _ (by simp), SetPhase.status_complete_of _ _ h1]
    · rw [SetPhase.status_complete_of _ _ (SetPhase.sound_at _ _ _ _ h2)]

theorem allWgComplete_frame (s : MonitorState) (k : PhaseKey)
    (h1 : k ≠ .producer_namespace) (h2 : k ≠ .producer_workgroup)
    (h3 : k ≠ .consumer_namespaces) (h4 : k ≠ .consumer_workgroups) :
    (allWgComplete s).phase_status.get k = s.phase_status.get k ∧
    (allWgComplete s).phase_complete_sticky.get k = s.phase_complete_sticky.get k := by
  unfold allWgComplete
  exact ⟨by rw [SetPhase.status_ne _ _ _ _ h4, SetPhase.status_ne _ _ _ _ h3,
                SetPhase.status_ne _ _ _ _ h2, SetPhase.status_ne _ _ _ _ h1],
         by rw [SetPhase.sticky_ne _ _ _ _ h4, SetPhase.sticky_ne _ _ _ _ h3,
                SetPhase.sticky_ne _ _ _ _ h2, SetPhase.sticky_ne _ _ _ _ h1]⟩

theorem allWgComplete_sticky (s : MonitorState) (k : PhaseKey)
    (h : s.phase_complete_sticky.get k = true) :
    (allWgComplete s).phase_status.get k = s.phase_status.get k ∧
    (allWgComplete s).phase_complete_sticky.get k = true := by
  unfold allWgComplete
  have k1 := SetPhase.sticky_mono s .producer_namespace k Status.complete h
  have k2 := SetPhase.sticky_mono _ .producer_workgroup k Status.complete k1
  have k3 := SetPhase.sticky_mono _ .consumer_namespaces k Status.complete k2
  refine ⟨?_, SetPhase.sticky_mono _ _ _ _ k3⟩
  rw [SetPhase.status_of_sticky _ _ _ _ k3, SetPhase.status_of_sticky _ _ _ _ k2,
      SetPhase.status_of_sticky _ _ _ _ k1, SetPhase.status_of_sticky _ _ _ _ h]

theorem allWgComplete_consistent (s : MonitorState) (h : phase_consistent s) :
    phase_consistent (allWgComplete s) :=
  SetPhase.consistent _ _ _ (SetPhase.consistent _ _ _
    (SetPhase.consistent _ _ _ (SetPhase.consistent _ _ _ h)))

theorem allWgComplete_dc (s : MonitorState) :
    (allWgComplete s).deployment_complete = s.deployment_complete := by
  unfold allWgComplete
  rw [SetPhase.deployment_complete_eq, SetPhase.deployment_complete_eq,
      SetPhase.deployment_complete_eq, SetPhase.deployment_complete_eq]

theorem allWgComplete_pnpw (s : MonitorState)
    (h1 : sticky_sound_at s .producer_namespace)
    (h2 : sticky_sound_at s .producer_workgroup) :
    (allWgComplete s).phase_status.get .producer_namespace = Status.complete ∧
    (allWgComplete s).phase_status.get .producer_workgroup = Status.complete := by
  unfold allWgComplete
  constructor
  · rw [SetPhase.status_ne _ _ _ _ (by simp), SetPhase.status_ne _ _ _ _ (by simp),
        SetPhase.status_ne _ _ _ _ (by simp), SetPhase.status_complete_of _ _ h1]
  · rw [SetPhase.status_ne _ _ _ _ (by simp), SetPhase.status_ne _ _ _ _ (by simp),
        SetPhase.status_complete_of _ _ (SetPhase.sound_at _ _ _ _ h2)]

theorem wgPhasePass_frame (l : List WorkgroupRow) (s : MonitorState) (k : PhaseKey)
    (h1 : k ≠ .producer_namespace) (h2 : k ≠ .producer_workgroup)
    (h3 : k ≠ .consumer_namespaces) (h4 : k ≠ .consumer_workgroups) :
    (wgPhasePass l s).phase_status.get k = s.phase_status.get k ∧
    (wgPhasePass l s).phase_complete_sticky.get k = s.phase_complete_sticky.get k := by
  unfold wgPhasePass
  dsimp only
  obtain ⟨hs, hk⟩ := wgPhaseFold_frame l k h1 h2 h3 (s, 0, 0)
  split
  · exact ⟨(SetPhase.status_ne _ _ _ _ h4).trans hs, (SetPhase.sticky_ne _ _ _ _ h4).trans hk⟩
  · split
    · exact ⟨(SetPhase.status_ne _ _ _ _ h4).trans hs, (SetPhase.sticky_ne _ _ _ _ h4).trans hk⟩
    · split
      · exact ⟨(SetPhase.status_ne _ _ _ _ h4).trans hs, (SetPhase.sticky_ne _ _ _ _ h4).trans hk⟩
      · exact ⟨hs, hk⟩

theorem wgPhasePass_sticky (l : List WorkgroupRow) (s : MonitorState) (k : PhaseKey)
    (h : s.phase_complete_sticky.get k = true) :
    (wgPhasePass l s).phase_status.get k = s.phase_status.get k ∧
    (wgPhasePass l s).phase_complete_sticky.get k = true := by
  unfold wgPhasePass
  dsimp only
  obtain ⟨hs, hk⟩ := wgPhaseFold_sticky l k (s, 0, 0) h
  split
  · exact ⟨(SetPhase.status_of_sticky _ _ _ _ hk).trans hs, SetPhase.sticky_mono _ _ _ _ hk⟩
  · split
    · exact ⟨(SetPhase.status_of_sticky _ _ _ _ hk).trans hs, SetPhase.sticky_mono _ _ _ _ hk⟩
    · split
      · exact ⟨(SetPhase.status_of_sticky _ _ _ _ hk).trans hs, SetPhase.sticky_mono _ _ _ _ hk⟩
      · exact ⟨hs, hk⟩

theorem wgPhasePass_consistent (l : List WorkgroupRow) (s : MonitorState)
    (h : phase_consistent s) : phase_consistent (wgPhasePass l s) := by
  unfold wgPhasePass
  dsimp only
  have hf := wgPhaseFold_consistent l (s, 0, 0) h
  split
  · exact SetPhase.consistent _ _ _ hf
  · split
    · exact SetPhase.consistent _ _ _ hf
    · split
      · exact SetPhase.consistent _ _ _ hf
      · exact hf

theorem wgPhasePass_dc (l : List WorkgroupRow) (s : MonitorState) :
    (wgPhasePass l s).deployment_complete = s.deployment_complete := by
  unfold wgPhasePass
  dsimp only
  have hf := wgPhaseFold_dc l (s, 0, 0)
  split
  · rw [SetPhase.deployment_complete_eq]; exact hf
  · split
    · rw [SetPhase.deployment_complete_eq]; exact hf
    · split
      · rw [SetPhase.deployment_complete_eq]; exact hf
      · exact hf

theorem wgPhasePass_eq_fold (l : List WorkgroupRow) (t : MonitorState) (k : PhaseKey)
    (hk : k ≠ .consumer_workgroups) :
    (wgPhasePass l t).phase_status.get k = (l.foldl wgPhaseStep (t, 0, 0)).1.phase_status.get k := by
  unfold wgPhasePass
  dsimp only
  split
  · exact SetPhase.status_ne _ _ _ _ hk
  · split
    · exact SetPhase.status_ne _ _ _ _ hk
    · split
      · exact SetPhase.status_ne _ _ _ _ hk
      · rfl

theorem wgTail_sticky (c1 : Prop) [Decidable c1] (c2 b : Bool) (t : MonitorState)
    (l : List WorkgroupRow) (k : PhaseKey) (h : t.phase_complete_sticky.get k = true) :
    (if c1 then allWgComplete (netSecPass b t)
     else if c2 = true then wgPhasePass l (netSecPass b t)
     else netSecPass b t).phase_status.get k = t.phase_status.get k ∧
    (if c1 then allWgComplete (netSecPass b t)
     else if c2 = true then wgPhasePass l (netSecPass b t)
     else netSecPass b t).phase_complete_sticky.get k = true := by
  obtain ⟨h1s, h1k⟩ := netSecPass_sticky b t k h
  split
  · obtain ⟨h2s, h2k⟩ := allWgComplete_sticky _ k h1k
    exact ⟨h2s.trans h1s, h2k⟩
  · split
    · obtain ⟨h2s, h2k⟩ := wgPhasePass_sticky l _ k h1k
      exact ⟨h2s.trans h1s, h2k⟩
    · exact ⟨h1s, h1k⟩

theorem wgTail_consistent (c1 : Prop) [Decidable c1] (c2 b : Bool) (t : MonitorState)
    (l : List WorkgroupRow) (h : phase_consistent t) :
    phase_consistent (if c1 then allWgComplete (netSecPass b t)
     else if c2 = true then wgPhasePass l (netSecPass b t)
     else netSecPass b t) := by
  have h1 := netSecPass_consistent b t h
  split
  · exact allWgComplete_consistent _ h1
  · split
    · exact wgPhasePass_consistent l _ h1
    · exact h1

theorem wgTail_dc (c1 : Prop) [Decidable c1] (c2 b : Bool) (t : MonitorState)
    (l : List WorkgroupRow) :
    (if c1 then allWgComplete (netSecPass b t)
     else if c2 = true then wgPhasePass l (netSecPass b t)
     else netSecPass b t).deployment_complete = t.deployment_complete := by
  have h1 := netSecPass_dc b t
  split
  · rw [allWgComplete_dc]; exact h1
  · split
    · rw [wgPhasePass_dc]; exact h1
    · exact h1

theorem wgTail_network (c1 : Prop) [Decidable c1] (c2 b : Bool) (t : MonitorState)
    (l : List WorkgroupRow) (hb : b = true)
    (h1 : sticky_sound_at t .networking) (h2 : sticky_sound_at t .security) :
    (if c1 then allWgComplete (netSecPass b t)
     else if c2 = true then wgPhasePass l (netSecPass b t)
     else netSecPass b t).phase_status.get .networking = Status.complete ∧
    (if c1 then allWgComplete (netSecPass b t)
     else if c2 = true then wgPhasePass l (netSecPass b t)
     else netSecPass b t).phase_status.get .security = Status.complete := by
  subst hb
  obtain ⟨hn, hs⟩ := netSecPass_network t h1 h2
  split
  · exact ⟨((allWgComplete_frame _ _ (by simp) (by simp) (by simp) (by simp)).1).trans hn,
           ((allWgComplete_frame _ _ (by simp) (by simp) (by simp) (by simp)).1).trans hs⟩
  · split
    · exact ⟨((wgPhasePass_frame l _ _ (by simp) (by simp) (by simp) (by simp)).1).trans hn,
             ((wgPhasePass_frame l _ _ (by simp) (by simp) (by simp) (by simp)).1).trans hs⟩
    · exact ⟨hn, hs⟩

theorem wgTail_creating (c1 : Prop) [Decidable c1] (c2 b : Bool) (t : MonitorState)
    (l : List WorkgroupRow) (nm : String)
    (hc1 : ¬c1) (hc2 : c2 = true)
    (hp : strContains (lowerStr nm) "producer" = true)
    (hshape : onlyProducerRow ⟨nm, "CREATING"⟩ l)
    (hmem : (⟨nm, "CREATING"⟩ : WorkgroupRow) ∈ l)
    (hsound : sticky_sound_at t .producer_namespace)
    (hsk : t.phase_complete_sticky.get .producer_workgroup = false) :
    (if c1 then allWgComplete (netSecPass b t)
     else if c2 = true then wgPhasePass l (netSecPass b t)
     else netSecPass b t).phase_status.get .producer_namespace = Status.complete ∧
    (if c1 then allWgComplete (netSecPass b t)
     else if c2 = true then wgPhasePass l (netSecPass b t)
     else netSecPass b t).phase_status.get .producer_workgroup = Status.in_progress := by
  rw [if_neg hc1, if_pos hc2]
  obtain ⟨hfs, hfk⟩ := netSecPass_frame b t .producer_namespace (by simp) (by simp)
  obtain ⟨hgs, hgk⟩ := netSecPass_frame b t .producer_workgroup (by simp) (by simp)
  obtain ⟨r1, r2, _⟩ := wgPhaseFold_creating nm hp l (netSecPass b t, 0, 0) hshape hmem
    (fun hx => hfs.trans (hsound (hfk.symm.trans hx))) (hgk.trans hsk)
  exact ⟨(wgPhasePass_eq_fold l _ _ (by simp)).trans r1,
         (wgPhasePass_eq_fold l _ _ (by simp)).trans r2⟩

theorem wgTail_available (c1 : Prop) [Decidable c1] (c2 b : Bool) (t : MonitorState)
    (l : List WorkgroupRow) (nm : String)
    (hc2 : c2 = true)
    (hp : strContains (lowerStr nm) "producer" = true)
    (hshape : onlyProducerRow ⟨nm, "AVAILABLE"⟩ l)
    (hmem : (⟨nm, "AVAILABLE"⟩ : WorkgroupRow) ∈ l)
    (hsound1 : sticky_sound_at t .producer_namespace)
    (hsound2 : sticky_sound_at t .producer_workgroup) :
    (if c1 then allWgComplete (netSecPass b t)
     else if c2 = true then wgPhasePass l (netSecPass b t)
     else netSecPass b t).phase_status.get .producer_namespace = Status.complete ∧
    (if c1 then allWgComplete (netSecPass b t)
     else if c2 = true then wgPhasePass l (netSecPass b t)
     else netSecPass b t).phase_status.get .producer_workgroup = Status.complete := by
  obtain ⟨hfs, hfk⟩ := netSecPass_frame b t .producer_namespace (by simp) (by simp)
  obtain ⟨hgs, hgk⟩ := netSecPass_frame b t .producer_workgroup (by simp) (by simp)
  have hsound1' : sticky_sound_at (netSecPass b t) .producer_namespace := by
    intro hx
    rw [hfs]
    exact hsound1 (hfk.symm.trans hx)
  have hsound2' : sticky_sound_at (netSecPass b t) .producer_workgroup := by
    intro hx
    rw [hgs]
    exact hsound2 (hgk.symm.trans hx)
  split
  · exact allWgComplete_pnpw _ hsound1' hsound2'
  · obtain ⟨r1, r2⟩ := wgPhaseFold_available nm hp l (netSecPass b t, 0, 0) hshape hmem
      hsound1' hsound2'
    exact ⟨(wgPhasePass_eq_fold l _ _ (by simp)).trans r1,
           (wgPhasePass_eq_fold l _ _ (by simp)).trans r2⟩

theorem wgBlock_sticky (s : MonitorState) (l : List WorkgroupRow) (k : PhaseKey)
    (h : s.phase_complete_sticky.get k = true) :
    (wgBlock s l).phase_status.get k = s.phase_status.get k ∧
    (wgBlock s l).phase_complete_sticky.get k = true := by
  unfold wgBlock
  dsimp only
  exact wgTail_sticky _ _ _ _ l k h

theorem wgBlock_consistent (s : MonitorState) (l : List WorkgroupRow)
    (h : phase_consistent s) : phase_consistent (wgBlock s l) := by
  unfold wgBlock
  dsimp only
  exact wgTail_consistent _ _ _ _ l h

theorem wgBlock_dc (s : MonitorState) (l : List WorkgroupRow) :
    (wgBlock s l).deployment_complete = s.deployment_complete := by
  unfold wgBlock
  dsimp only
  exact wgTail_dc _ _ _ _ l

theorem wgBlock_network (s : MonitorState) (l : List WorkgroupRow)
    (hcons : phase_consistent s)
    (hpos : 0 < l.countP (availRow s.project_name) + l.countP (creatingRow s.project_name)) :
    (wgBlock s l).phase_status.get .networking = Status.complete ∧
    (wgBlock s l).phase_status.get .security = Status.complete := by
  unfold wgBlock
  dsimp only
  refine wgTail_network _ _ _ _ l ?_ ?_ ?_
  · rw [wgScan_avail_eq, wgScan_creating_eq]
    simp only [Bool.or_eq_true, decide_eq_true_eq]
    omega
  · intro hx
    exact (hcons .networking).mp hx
  · intro hx
    exact (hcons .security).mp hx

theorem wgBlock_creating (s : MonitorState) (l : List WorkgroupRow) (nm : String)
    (hcons : phase_consistent s)
    (hsk : s.phase_complete_sticky.get .producer_workgroup = false)
    (hp : strContains (lowerStr nm) "producer" = true)
    (hshape : onlyProducerRow ⟨nm, "CREATING"⟩ l)
    (hmem : (⟨nm, "CREATING"⟩ : WorkgroupRow) ∈ l)
    (hpn2 : strContains nm s.project_name = true)
    (hlt : l.countP (availRow s.project_name) < s.consumer_count + 1) :
    (wgBlock s l).phase_status.get .producer_namespace = Status.complete ∧
    (wgBlock s l).phase_status.get .producer_workgroup = Status.in_progress := by
  unfold wgBlock
  dsimp only
  refine wgTail_creating _ _ _ _ l nm ?_ ?_ hp hshape hmem ?_ hsk
  · rw [wgScan_avail_eq]
    simp only [not_le]
    omega
  · have hcp : 0 < l.countP (creatingRow s.project_name) := by
      rw [List.countP_pos_iff]
      refine ⟨⟨nm, "CREATING"⟩, hmem, ?_⟩
      unfold creatingRow
      rw [hpn2]
      rfl
    rw [wgScan_creating_eq]
    simp only [Bool.or_eq_true, decide_eq_true_eq]
    left
    omega
  · intro hx
    exact (hcons .producer_namespace).mp hx

theorem wgBlock_available (s : MonitorState) (l : List WorkgroupRow) (nm : String)
    (hcons : phase_consistent s)
    (hp : strContains (lowerStr nm) "producer" = true)
    (hshape : onlyProducerRow ⟨nm, "AVAILABLE"⟩ l)
    (hmem : (⟨nm, "AVAILABLE"⟩ : WorkgroupRow) ∈ l)
    (hpn2 : strContains nm s.project_name = true) :
    (wgBlock s l).phase_status.get .producer_namespace = Status.complete ∧
    (wgBlock s l).phase_status.get .producer_workgroup = Status.complete := by
  unfold wgBlock
  dsimp only
  refine wgTail_available _ _ _ _ l nm ?_ hp hshape hmem ?_ ?_
  · have hcp : 0 < l.countP (availRow s.project_name) := by
      rw [List.countP_pos_iff]
      refine ⟨⟨nm, "AVAILABLE"⟩, hmem, ?_⟩
      unfold availRow
      rw [hpn2]
      rfl
    rw [wgScan_creating_eq, wgScan_avail_eq]
    simp only [Bool.or_eq_true, decide_eq_true_eq]
    right
    omega
  · intro hx
    exact (hcons .producer_namespace).mp hx
  · intro hx
    exact (hcons .producer_workgroup).mp hx

theorem stepVpcT_frame (s : MonitorState) (vpcs : Option (List VpcRow))
    (subnets : Option (List SubnetRow)) (k : PhaseKey)
    (h1 : k ≠ .networking) (h2 : k ≠ .security) :
    (stepVpcT s vpcs subnets).1.phase_status.get k = s.phase_status.get k ∧
    (stepVpcT s vpcs subnets).1.phase_complete_sticky.get k = s.phase_complete_sticky.get k := by
  unfold stepVpcT
  split
  · exact ⟨rfl, rfl⟩
  · split
    · split
      · exact ⟨by dsimp only; rw [SetPhase.status_ne _ _ _ _ h2, SetPhase.status_ne _ _ _ _ h1],
               by dsimp only; rw [SetPhase.sticky_ne _ _ _ _ h2, SetPhase.sticky_ne _ _ _ _ h1]⟩
      · exact ⟨by dsimp only; rw [SetPhase.status_ne _ _ _ _ h2, SetPhase.status_ne _ _ _ _ h1],
               by dsimp only; rw [SetPhase.sticky_ne _ _ _ _ h2, SetPhase.sticky_ne _ _ _ _ h1]⟩
    · exact ⟨rfl, rfl⟩

theorem stepVpcT_sticky (s : MonitorState) (vpcs : Option (List VpcRow))
    (subnets : Option (List SubnetRow)) (k : PhaseKey)
    (h : s.phase_complete_sticky.get k = true) :
    (stepVpcT s vpcs subnets).1.phase_status.get k = s.phase_status.get k ∧
    (stepVpcT s vpcs subnets).1.phase_complete_sticky.get k = true := by
  unfold stepVpcT
  split
  · exact ⟨rfl, h⟩
  · split
    · split
      · exact SetPhase.sticky2 _ _ _ k _ _ h
      · exact SetPhase.sticky2 _ _ _ k _ _ h
    · exact ⟨rfl, h⟩

theorem stepVpcT_consistent (s : MonitorState) (vpcs : Option (List VpcRow))
    (subnets : Option (List SubnetRow)) (h : phase_consistent s) :
    phase_consistent (stepVpcT s vpcs subnets).1 := by
  unfold stepVpcT
  split
  · exact h
  · split
    · split
      · exact SetPhase.consistent _ _ _ (SetPhase.consistent _ _ _ h)
      · exact SetPhase.consistent _ _ _ (SetPhase.consistent _ _ _ h)
    · exact h

theorem stepVpcT_dc (s : MonitorState) (vpcs : Option (List VpcRow))
    (subnets : Option (List SubnetRow)) :
    (stepVpcT s vpcs subnets).1.deployment_complete = s.deployment_complete := by
  unfold stepVpcT
  split
  · rfl
  · split
    · split
      · dsimp only
        rw [SetPhase.deployment_complete_eq, SetPhase.deployment_complete_eq]
      · dsimp only
        rw [SetPhase.deployment_complete_eq, SetPhase.deployment_complete_eq]
    · rfl

theorem stepVpcT_of_empty (s : MonitorState) (vpcs : Option (List VpcRow))
    (subnets : Option (List SubnetRow)) (h : vpcs = none ∨ vpcs = some []) :
    (stepVpcT s vpcs subnets).1 = s := by
  unfold stepVpcT
  split
  · rfl
  · rcases h with h | h <;> subst h <;> rfl

theorem stepWorkgroupsT_sticky (s : MonitorState) (wgs : Option (List WorkgroupRow))
    (k : PhaseKey) (h : s.phase_complete_sticky.get k = true) :
    (stepWorkgroupsT s wgs).1.phase_status.get k = s.phase_status.get k ∧
    (stepWorkgroupsT s wgs).1.phase_complete_sticky.get k = true := by
  unfold stepWorkgroupsT
  split
  · exact wgBlock_sticky _ _ k h
  · exact ⟨rfl, h⟩

theorem stepWorkgroupsT_consistent (s : MonitorState) (wgs : Option (List WorkgroupRow))
    (h : phase_consistent s) : phase_consistent (stepWorkgroupsT s wgs).1 := by
  unfold stepWorkgroupsT
  split
  · exact wgBlock_consistent _ _ h
  · exact h

theorem stepWorkgroupsT_dc (s : MonitorState) (wgs : Option (List WorkgroupRow)) :
    (stepWorkgroupsT s wgs).1.deployment_complete = s.deployment_complete := by
  unfold stepWorkgroupsT
  split
  · exact wgBlock_dc _ _
  · rfl

theorem stepWorkgroupsT_of_empty (s : MonitorState) (wgs : Option (List WorkgroupRow))
    (h : wgs = none ∨ wgs = some []) : (stepWorkgroupsT s wgs).1 = s := by
  unfold stepWorkgroupsT
  rcases h with h | h <;> subst h <;> rfl

theorem SetPhase.sticky1 (s : MonitorState) (k1 k : PhaseKey) (st1 : Status)
    (h : s.phase_complete_sticky.get k = true) :
    (set_phase_status s k1 st1).phase_status.get k = s.phase_status.get k ∧
    (set_phase_status s k1 st1).phase_complete_sticky.get k = true :=
  ⟨SetPhase.status_of_sticky s k1 k st1 h, SetPhase.sticky_mono s k1 k st1 h⟩

theorem epBlock_frame (s : MonitorState) (l : List EndpointRow) (k : PhaseKey)
    (hk : k ≠ .vpc_endpoints) :
    (epBlock s l).phase_status.get k = s.phase_status.get k ∧
    (epBlock s l).phase_complete_sticky.get k = s.phase_complete_sticky.get k := by
  unfold epBlock
  dsimp only
  split
  · exact ⟨SetPhase.status_ne _ _ _ _ hk, SetPhase.sticky_ne _ _ _ _ hk⟩
  · split
    · exact ⟨SetPhase.status_ne _ _ _ _ hk, SetPhase.sticky_ne _ _ _ _ hk⟩
    · exact ⟨SetPhase.status_ne _ _ _ _ hk, SetPhase.sticky_ne _ _ _ _ hk⟩

theorem epBlock_sticky (s : MonitorState) (l : List EndpointRow) (k : PhaseKey)
    (h : s.phase_complete_sticky.get k = true) :
    (epBlock s l).phase_status.get k = s.phase_status.get k ∧
    (epBlock s l).phase_complete_sticky.get k = true := by
  unfold epBlock
  dsimp only
  split
  · exact SetPhase.sticky1 _ _ k _ h
  · split
    · exact SetPhase.sticky1 _ _ k _ h
    · exact SetPhase.sticky1 _ _ k _ h

theorem epBlock_consistent (s : MonitorState) (l : List EndpointRow)
    (h : phase_consistent s) : phase_consistent (epBlock s l) := by
  unfold epBlock
  dsimp only
  split
  · exact SetPhase.consistent _ _ _ h
  · split
    · exact SetPhase.consistent _ _ _ h
    · exact SetPhase.consistent _ _ _ h

theorem epBlock_dc (s : MonitorState) (l : List EndpointRow) :
    (epBlock s l).deployment_complete = s.deployment_complete := by
  unfold epBlock
  dsimp only
  split
  · rw [SetPhase.deployment_complete_eq]
  · split
    · rw [SetPhase.deployment_complete_eq]
    · rw [SetPhase.deployment_complete_eq]

theorem stepEndpointsT_frame (s : MonitorState) (eps : Option (List EndpointRow)) (k : PhaseKey)
    (hk : k ≠ .vpc_endpoints) :
    (stepEndpointsT s eps).1.phase_status.get k = s.phase_status.get k ∧
    (stepEndpointsT s eps).1.phase_complete_sticky.get k = s.phase_complete_sticky.get k := by
  unfold stepEndpointsT
  split
  · split
    · exact epBlock_frame _ _ k hk
    · exact ⟨rfl, rfl⟩
  · exact ⟨rfl, rfl⟩

theorem stepEndpointsT_sticky (s : MonitorState) (eps : Option (List EndpointRow)) (k : PhaseKey)
    (h : s.phase_complete_sticky.get k = true) :
    (stepEndpointsT s eps).1.phase_status.get k = s.phase_status.get k ∧
    (stepEndpointsT s eps).1.phase_complete_sticky.get k = true := by
  unfold stepEndpointsT
  split
  · split
    · exact epBlock_sticky _ _ k h
    · exact ⟨rfl, h⟩
  · exact ⟨rfl, h⟩

theorem stepEndpointsT_consistent (s : MonitorState) (eps : Option (List EndpointRow))
    (h : phase_consistent s) : phase_consistent (stepEndpointsT s eps).1 := by
  unfold stepEndpointsT
  split
  · split
    · exact epBlock_consistent _ _ h
    · exact h
  · exact h

theorem stepEndpointsT_dc (s : MonitorState) (eps : Option (List EndpointRow)) :
    (stepEndpointsT s eps).1.deployment_complete = s.deployment_complete := by
  unfold stepEndpointsT
  split
  · split
    · exact epBlock_dc _ _
    · rfl
  · rfl

theorem stepEndpointsT_of_empty (s : MonitorState) (eps : Option (List EndpointRow))
    (h : eps = none ∨ eps = some []) : (stepEndpointsT s eps).1 = s := by
  unfold stepEndpointsT
  split
  · rcases h with h | h <;> subst h <;> rfl
  · rfl

theorem targetsBlock_frame (s : MonitorState) (ts : List String) (k : PhaseKey)
    (h1 : k ≠ .targets) (h2 : k ≠ .health) :
    (targetsBlock s ts).phase_status.get k = s.phase_status.get k ∧
    (targetsBlock s ts).phase_complete_sticky.get k = s.phase_complete_sticky.get k := by
  unfold targetsBlock
  dsimp only
  split
  · exact ⟨by rw [SetPhase.status_ne _ _ _ _ h2, SetPhase.status_ne _ _ _ _ h1],
           by rw [SetPhase.sticky_ne _ _ _ _ h2, SetPhase.sticky_ne _ _ _ _ h1]⟩
  · split
    · split
      · exact ⟨by rw [SetPhase.status_ne _ _ _ _ h2, SetPhase.status_ne _ _ _ _ h1],
               by rw [SetPhase.sticky_ne _ _ _ _ h2, SetPhase.sticky_ne _ _ _ _ h1]⟩
      · exact ⟨SetPhase.status_ne _ _ _ _ h1, SetPhase.sticky_ne _ _ _ _ h1⟩
    · exact ⟨rfl, rfl⟩

theorem targetsBlock_sticky (s : MonitorState) (ts : List String) (k : PhaseKey)
    (h : s.phase_complete_sticky.get k = true) :
    (targetsBlock s ts).phase_status.get k = s.phase_status.get k ∧
    (targetsBlock s ts).phase_complete_sticky.get k = true := by
  unfold targetsBlock
  dsimp only
  split
  · exact SetPhase.sticky2 _ _ _ k _ _ h
  · split
    · split
      · exact SetPhase.sticky2 _ _ _ k _ _ h
      · exact SetPhase.sticky1 _ _ k _ h
    · exact ⟨rfl, h⟩

theorem targetsBlock_consistent (s : MonitorState) (ts : List String)
    (h : phase_consistent s) : phase_consistent (targetsBlock s ts) := by
  unfold targetsBlock
  dsimp only
  split
  · exact SetPhase.consistent _ _ _ (SetPhase.consistent _ _ _ h)
  · split
    · split
      · exact SetPhase.consistent _ _ _ (SetPhase.consistent _ _ _ h)
      · exact SetPhase.consistent _ _ _ h
    · exact h

theorem targetsBlock_dc_mono (s : MonitorState) (ts : List String)
    (h : s.deployment_complete = true) :
    (targetsBlock s ts).deployment_complete = true := by
  unfold targetsBlock
  dsimp only
  split
  · rfl
  · split
    · split
      · rw [SetPhase.deployment_complete_eq, SetPhase.deployment_complete_eq]
        exact h
      · rw [SetPhase.deployment_complete_eq]
        exact h
    · exact h

theorem nlbAssign_frame (s : MonitorState) (nlb0 : NlbRow) (k : PhaseKey)
    (h1 : k ≠ .nlb) :
    (nlbAssign s nlb0).phase_status.get k = s.phase_status.get k ∧
    (nlbAssign s nlb0).phase_complete_sticky.get k = s.phase_complete_sticky.get k := by
  unfold nlbAssign
  dsimp only
  split
  · exact ⟨SetPhase.status_ne _ _ _ _ h1, SetPhase.sticky_ne _ _ _ _ h1⟩
  · split
    · exact ⟨SetPhase.status_ne _ _ _ _ h1, SetPhase.sticky_ne _ _ _ _ h1⟩
    · exact ⟨rfl, rfl⟩

theorem nlbAssign_sticky (s : MonitorState) (nlb0 : NlbRow) (k : PhaseKey)
    (h : s.phase_complete_sticky.get k = true) :
    (nlbAssign s nlb0).phase_status.get k = s.phase_status.get k ∧
    (nlbAssign s nlb0).phase_complete_sticky.get k = true := by
  unfold nlbAssign
  dsimp only
  split
  · exact SetPhase.sticky1 _ _ k _ h
  · split
    · exact SetPhase.sticky1 _ _ k _ h
    · exact ⟨rfl, h⟩

theorem nlbAssign_consistent (s : MonitorState) (nlb0 : NlbRow)
    (h : phase_consistent s) : phase_consistent (nlbAssign s nlb0) := by
  unfold nlbAssign
  dsimp only
  split
  · exact SetPhase.consistent _ _ _ h
  · split
    · exact SetPhase.consistent _ _ _ h
    · exact h

theorem nlbAssign_dc (s : MonitorState) (nlb0 : NlbRow) :
    (nlbAssign s nlb0).deployment_complete = s.deployment_complete := by
  unfold nlbAssign
  dsimp only
  split
  · rw [SetPhase.deployment_complete_eq]
  · split
    · rw [SetPhase.deployment_complete_eq]
    · rfl

theorem tgSectionT_frame (s : MonitorState) (tgs th : Option (List String))
    (t2 : List QueryFamily) (k : PhaseKey) (h2 : k ≠ .targets) (h3 : k ≠ .health) :
    (tgSectionT s tgs th t2).1.phase_status.get k = s.phase_status.get k ∧
    (tgSectionT s tgs th t2).1.phase_complete_sticky.get k = s.phase_complete_sticky.get k := by
  unfold tgSectionT
  split
  · dsimp only
    split
    · exact targetsBlock_frame _ _ k h2 h3
    · exact ⟨rfl, rfl⟩
  · dsimp only
    split
    · exact ⟨SetPhase.status_ne _ _ _ _ h2, SetPhase.sticky_ne _ _ _ _ h2⟩
    · exact ⟨rfl, rfl⟩

theorem tgSectionT_sticky (s : MonitorState) (tgs th : Option (List String))
    (t2 : List QueryFamily) (k : PhaseKey) (h : s.phase_complete_sticky.get k = true) :
    (tgSectionT s tgs th t2).1.phase_status.get k = s.phase_status.get k ∧
    (tgSectionT s tgs th t2).1.phase_complete_sticky.get k = true := by
  unfold tgSectionT
  split
  · dsimp only
    split
    · exact targetsBlock_sticky _ _ k h
    · exact ⟨rfl, h⟩
  · dsimp only
    split
    · exact SetPhase.sticky1 _ _ k _ h
    · exact ⟨rfl, h⟩

theorem tgSectionT_consistent (s : MonitorState) (tgs th : Option (List String))
    (t2 : List QueryFamily) (h : phase_consistent s) :
    phase_consistent (tgSectionT s tgs th t2).1 := by
  unfold tgSectionT
  split
  · dsimp only
    split
    · exact targetsBlock_consistent _ _ h
    · exact h
  · dsimp only
    split
    · exact SetPhase.consistent _ _ _ h
    · exact h

theorem tgSectionT_dc_mono (s : MonitorState) (tgs th : Option (List String))
    (t2 : List QueryFamily) (h : s.deployment_complete = true) :
    (tgSectionT s tgs th t2).1.deployment_complete = true := by
  unfold tgSectionT
  split
  · dsimp only
    split
    · exact targetsBlock_dc_mono _ _ h
    · exact h
  · dsimp only
    split
    · exact (SetPhase.deployment_complete_eq _ _ _).trans h
    · exact h

theorem stepNlbT_frame (s : MonitorState)
    (ne nc : Option (List NlbRow)) (te tc : Option (List String)) (th : Option (List String))
    (k : PhaseKey) (h1 : k ≠ .nlb) (h2 : k ≠ .targets) (h3 : k ≠ .health) :
    (stepNlbT s ne nc te tc th).1.phase_status.get k = s.phase_status.get k ∧
    (stepNlbT s ne nc te tc th).1.phase_complete_sticky.get k = s.phase_complete_sticky.get k := by
  unfold stepNlbT
  rcases ne with _ | ⟨_ | ⟨n0, nt⟩⟩ <;> rcases nc with _ | ⟨_ | ⟨m0, mt⟩⟩ <;>
    (split
     · simp only [truthy]
       first
       | exact ⟨rfl, rfl⟩
       | exact ⟨(tgSectionT_frame _ _ th _ k h2 h3).1.trans (nlbAssign_frame s _ k h1).1,
                (tgSectionT_frame _ _ th _ k h2 h3).2.trans (nlbAssign_frame s _ k h1).2⟩
     · exact ⟨rfl, rfl⟩)

theorem stepNlbT_sticky (s : MonitorState)
    (ne nc : Option (List NlbRow)) (te tc : Option (List String)) (th : Option (List String))
    (k : PhaseKey) (h : s.phase_complete_sticky.get k = true) :
    (stepNlbT s ne nc te tc th).1.phase_status.get k = s.phase_status.get k ∧
    (stepNlbT s ne nc te tc th).1.phase_complete_sticky.get k = true := by
  unfold stepNlbT
  rcases ne with _ | ⟨_ | ⟨n0, nt⟩⟩ <;> rcases nc with _ | ⟨_ | ⟨m0, mt⟩⟩ <;>
    (split
     · simp only [truthy]
       first
       | exact ⟨rfl, h⟩
       | exact ⟨(tgSectionT_sticky _ _ th _ k ((nlbAssign_sticky s _ k h).2)).1.trans
                  (nlbAssign_sticky s _ k h).1,
                (tgSectionT_sticky _ _ th _ k ((nlbAssign_sticky s _ k h).2)).2⟩
     · exact ⟨rfl, h⟩)

theorem stepNlbT_consistent (s : MonitorState)
    (ne nc : Option (List NlbRow)) (te tc : Option (List String)) (th : Option (List String))
    (h : phase_consistent s) : phase_consistent (stepNlbT s ne nc te tc th).1 := by
  unfold stepNlbT
  rcases ne with _ | ⟨_ | ⟨n0, nt⟩⟩ <;> rcases nc with _ | ⟨_ | ⟨m0, mt⟩⟩ <;>
    (split
     · simp only [truthy]
       first
       | exact h
       | exact tgSectionT_consistent _ _ th _ (nlbAssign_consistent s _ h)
     · exact h)

theorem stepNlbT_dc_mono (s : MonitorState)
    (ne nc : Option (List NlbRow)) (te tc : Option (List String)) (th : Option (List String))
    (h : s.deployment_complete = true) :
    (stepNlbT s ne nc te tc th).1.deployment_complete = true := by
  unfold stepNlbT
  rcases ne with _ | ⟨_ | ⟨n0, nt⟩⟩ <;> rcases nc with _ | ⟨_ | ⟨m0, mt⟩⟩ <;>
    (split
     · simp only [truthy]
       first
       | exact h
       | exact tgSectionT_dc_mono _ _ th _ ((nlbAssign_dc s _).trans h)
     · exact h)

theorem stepNlbT_of_empty (s : MonitorState)
    (ne nc : Option (List NlbRow)) (te tc : Option (List String)) (th : Option (List String))
    (hne : ne = none ∨ ne = some []) (hnc : nc = none ∨ nc = some []) :
    (stepNlbT s ne nc te tc th).1 = s := by
  unfold stepNlbT
  split
  · rcases hne with hne | hne <;> rcases hnc with hnc | hnc <;> subst hne <;> subst hnc <;> rfl
  · rfl

theorem stepCurrentPhase_phases (s : MonitorState) :
    (stepCurrentPhase s).phase_status = s.phase_status ∧
    (stepCurrentPhase s).phase_complete_sticky = s.phase_complete_sticky ∧
    (stepCurrentPhase s).deployment_complete = s.deployment_complete ∧
    (stepCurrentPhase s).resources = s.resources := by
  unfold stepCurrentPhase
  split
  · exact ⟨rfl, rfl, rfl, rfl⟩
  · split
    · exact ⟨rfl, rfl, rfl, rfl⟩
    · exact ⟨rfl, rfl, rfl, rfl⟩

theorem pollBump_phases (s : MonitorState) :
    (pollBump s).phase_status = s.phase_status ∧
    (pollBump s).phase_complete_sticky = s.phase_complete_sticky ∧
    (pollBump s).deployment_complete = s.deployment_complete ∧
    (pollBump s).resources = s.resources :=
  ⟨rfl, rfl, rfl, rfl⟩

theorem update_eq (s : MonitorState) (q : QueryEnv) :
    update_deployment_status s q =
      stepCurrentPhase (stepNlbT (stepEndpointsT (stateAtEndpointCheck s q) q.endpoints).1
        q.nlbs_exact q.nlbs_contains q.tgs_exact q.tgs_contains q.target_health).1 := rfl

theorem stepCurrentPhase_get (s : MonitorState) (k : PhaseKey) :
    (stepCurrentPhase s).phase_status.get k = s.phase_status.get k ∧
    (stepCurrentPhase s).phase_complete_sticky.get k = s.phase_complete_sticky.get k := by
  obtain ⟨m1, m2, _, _⟩ := stepCurrentPhase_phases s
  exact ⟨congrArg (fun m => m.get k) m1, congrArg (fun m => m.get k) m2⟩

theorem update_sticky (s : MonitorState) (q : QueryEnv) (k : PhaseKey)
    (h : s.phase_complete_sticky.get k = true) :
    (update_deployment_status s q).phase_status.get k = s.phase_status.get k ∧
    (update_deployment_status s q).phase_complete_sticky.get k = true := by
  rw [update_eq]
  obtain ⟨a1, a2⟩ := stepVpcT_sticky (pollBump s) q.vpcs q.subnets k h
  obtain ⟨b1, b2⟩ := stepWorkgroupsT_sticky _ q.workgroups k a2
  obtain ⟨c1, c2⟩ := stepEndpointsT_sticky _ q.endpoints k b2
  obtain ⟨d1, d2⟩ := stepNlbT_sticky _ q.nlbs_exact q.nlbs_contains q.tgs_exact q.tgs_contains
    q.target_health k c2
  obtain ⟨e1, e2⟩ := stepCurrentPhase_get _ k
  exact ⟨e1.trans (d1.trans (c1.trans (b1.trans a1))), e2.trans d2⟩

theorem update_consistent (s : MonitorState) (q : QueryEnv) (h : phase_consistent s) :
    phase_consistent (update_deployment_status s q) := by
  rw [update_eq]
  have a := stepVpcT_consistent (pollBump s) q.vpcs q.subnets h
  have b := stepWorkgroupsT_consistent _ q.workgroups a
  have c := stepEndpointsT_consistent _ q.endpoints b
  have d := stepNlbT_consistent _ q.nlbs_exact q.nlbs_contains q.tgs_exact q.tgs_contains
    q.target_health c
  intro k
  obtain ⟨e1, e2⟩ := stepCurrentPhase_get (stepNlbT (stepEndpointsT
    (stateAtEndpointCheck s q) q.endpoints).1 q.nlbs_exact q.nlbs_contains q.tgs_exact
    q.tgs_contains q.target_health).1 k
  rw [e1, e2]
  exact d k

theorem update_dc_mono (s : MonitorState) (q : QueryEnv) (h : s.deployment_complete = true) :
    (update_deployment_status s q).deployment_complete = true := by
  rw [update_eq]
  have a := (stepVpcT_dc (pollBump s) q.vpcs q.subnets).trans h
  have b := (stepWorkgroupsT_dc _ q.workgroups).trans a
  have c := (stepEndpointsT_dc _ q.endpoints).trans b
  have d := stepNlbT_dc_mono _ q.nlbs_exact q.nlbs_contains q.tgs_exact q.tgs_contains
    q.target_health c
  exact ((stepCurrentPhase_phases _).2.2.1).trans d

theorem runCycles_complete_sticky (qs : List QueryEnv) :
    ∀ (s : MonitorState) (k : PhaseKey), phase_consistent s →
      s.phase_status.get k = Status.complete →
      (runCycles s qs).phase_status.get k = Status.complete ∧ phase_consistent (runCycles s qs) := by
  induction qs with
  | nil => intro s k hc hs; exact ⟨hs, hc⟩
  | cons q t ih =>
    intro s k hc hs
    have hst : s.phase_complete_sticky.get k = true := (hc k).mpr hs
    obtain ⟨h1, _⟩ := update_sticky s q k hst
    exact ih (update_deployment_status s q) k (update_consistent s q hc) (h1.trans hs)

theorem runCycles_dc_mono (qs : List QueryEnv) :
    ∀ s : MonitorState, s.deployment_complete = true →
      (runCycles s qs).deployment_complete = true := by
  induction qs with
  | nil => intro s h; exact h
  | cons q t ih =>
    intro s h
    exact ih (update_deployment_status s q) (update_dc_mono s q h)

/-- Emptiness of one query result: a failed call or an empty list. -/
def listEmpty (o : Option (List α)) : Prop := o = none ∨ o = some []

/-- Every query of the cycle came back empty. -/
def EmptyEnv (q : QueryEnv) : Prop :=
  listEmpty q.vpcs ∧ listEmpty q.subnets ∧ listEmpty q.workgroups ∧ listEmpty q.endpoints ∧
  listEmpty q.nlbs_exact ∧ listEmpty q.nlbs_contains ∧ listEmpty q.tgs_exact ∧
  listEmpty q.tgs_contains ∧ listEmpty q.target_health

theorem update_empty (s : MonitorState) (q : QueryEnv) (h : EmptyEnv q) :
    (update_deployment_status s q).resources = s.resources ∧
    (update_deployment_status s q).phase_status = s.phase_status ∧
    (update_deployment_status s q).phase_complete_sticky = s.phase_complete_sticky := by
  rw [update_eq]
  unfold stateAtEndpointCheck
  rw [stepVpcT_of_empty _ _ _ h.1, stepWorkgroupsT_of_empty _ _ h.2.2.1,
      stepEndpointsT_of_empty _ _ h.2.2.2.1,
      stepNlbT_of_empty _ _ _ _ _ _ h.2.2.2.2.1 h.2.2.2.2.2.1]
  obtain ⟨m1, m2, _, m4⟩ := stepCurrentPhase_phases (pollBump s)
  exact ⟨m4, m1, m2⟩

theorem stepVpcT_config (s : MonitorState) (vpcs : Option (List VpcRow))
    (subnets : Option (List SubnetRow)) :
    (stepVpcT s vpcs subnets).1.project_name = s.project_name ∧
    (stepVpcT s vpcs subnets).1.consumer_count = s.consumer_count := by
  unfold stepVpcT
  split
  · exact ⟨rfl, rfl⟩
  · split
    · split
      · exact ⟨by dsimp only; rw [SetPhase.project_name_eq, SetPhase.project_name_eq],
               by dsimp only; rw [SetPhase.consumer_count_eq, SetPhase.consumer_count_eq]⟩
      · exact ⟨by dsimp only; rw [SetPhase.project_name_eq, SetPhase.project_name_eq],
               by dsimp only; rw [SetPhase.consumer_count_eq, SetPhase.consumer_count_eq]⟩
    · exact ⟨rfl, rfl⟩

theorem runCycles_consistent (qs : List QueryEnv) :
    ∀ s : MonitorState, phase_consistent s → phase_consistent (runCycles s qs) := by
  induction qs with
  | nil => intro s h; exact h
  | cons q t ih => intro s h; exact ih _ (update_consistent s q h)

/-- C1.  Sticky monotonic completion: `set_phase_status` is a no-op on a phase
whose sticky flag is set; setting a phase to complete raises its sticky flag; and
once the status of a phase reads complete after some prefix of reconciliation cycles,
it still reads complete after any further cycles, whatever those cycles observe. -/
theorem C1_sticky_monotone_completion :
    (∀ (s : MonitorState) (k : PhaseKey) (st : Status),
       s.phase_complete_sticky.get k = true → set_phase_status s k st = s) ∧
    (∀ (s : MonitorState) (k : PhaseKey),
       (set_phase_status s k Status.complete).phase_complete_sticky.get k = true) ∧
    (∀ (s : MonitorState) (qs₁ qs₂ : List QueryEnv) (k : PhaseKey),
       phase_consistent s →
       (runCycles s qs₁).phase_status.get k = Status.complete →
       (runCycles (runCycles s qs₁) qs₂).phase_status.get k = Status.complete) := by
  refine ⟨?_, ?_, ?_⟩
  · intro s k st h
    unfold set_phase_status
    rw [if_pos h]
  · intro s k
    exact SetPhase.sticky_complete s k
  · intro s qs₁ qs₂ k hc hcomp
    exact (runCycles_complete_sticky qs₂ (runCycles s qs₁) k
      (runCycles_consistent qs₁ s hc) hcomp).1

/-- C1 witness: a concrete sticky-complete phase is frozen by `set_phase_status`,
the flag is raised by completing, and completion survives further cycles. -/
theorem C1_witness :
    set_phase_status (set_phase_status (initState "airline" 3) .networking Status.complete)
      .networking Status.pending =
      set_phase_status (initState "airline" 3) .networking Status.complete ∧
    (set_phase_status (initState "airline" 3) .networking Status.complete).phase_complete_sticky.get
      .networking = true ∧
    (runCycles (runCycles (set_phase_status (initState "airline" 3) .networking Status.complete)
      []) []).phase_status.get .networking = Status.complete :=
  ⟨C1_sticky_monotone_completion.1 _ .networking Status.pending (by decide),
   C1_sticky_monotone_completion.2.1 _ .networking,
   C1_sticky_monotone_completion.2.2 _ [] [] .networking (by intro k; cases k <;> decide)
     (by decide)⟩

/-- C2.  Transitive inference: when the workgroup poll of a cycle contains at least one
project-named workgroup in AVAILABLE or CREATING/MODIFYING state while the VPC
query returns empty, the networking and security phases read complete after the
cycle. -/
theorem C2_transitive_inference (s : MonitorState) (q : QueryEnv)
    (l : List WorkgroupRow) (w : WorkgroupRow)
    (hc : phase_consistent s)
    (hvpc : listEmpty q.vpcs)
    (hwg : q.workgroups = some l)
    (hmem : w ∈ l)
    (hname : strContains w.workgroupName s.project_name = true)
    (hstate : w.status = "AVAILABLE" ∨ w.status = "CREATING" ∨ w.status = "MODIFYING") :
    (update_deployment_status s q).phase_status.get .networking = Status.complete ∧
    (update_deployment_status s q).phase_status.get .security = Status.complete := by
  rw [update_eq]
  unfold stateAtEndpointCheck
  rw [stepVpcT_of_empty _ _ _ hvpc, hwg]
  cases l with
  | nil => simp at hmem
  | cons w0 ws =>
    have hname' : strContains w.workgroupName (pollBump s).project_name = true := hname
    have hpos : 0 < (w0 :: ws).countP (availRow (pollBump s).project_name) +
        (w0 :: ws).countP (creatingRow (pollBump s).project_name) := by
      rcases hstate with hst | hst | hst
      · have : 0 < (w0 :: ws).countP (availRow (pollBump s).project_name) := by
          rw [List.countP_pos_iff]
          refine ⟨w, hmem, ?_⟩
          unfold availRow
          rw [hst, hname']
          rfl
        omega
      · have : 0 < (w0 :: ws).countP (creatingRow (pollBump s).project_name) := by
          rw [List.countP_pos_iff]
          refine ⟨w, hmem, ?_⟩
          unfold creatingRow
          rw [hst, hname']
          rfl
        omega
      · have : 0 < (w0 :: ws).countP (creatingRow (pollBump s).project_name) := by
          rw [List.countP_pos_iff]
          refine ⟨w, hmem, ?_⟩
          unfold creatingRow
          rw [hst, hname']
          rfl
        omega
    obtain ⟨r1, r2⟩ := wgBlock_network (pollBump s) (w0 :: ws) hc hpos
    obtain ⟨f1, _⟩ := stepEndpointsT_frame (wgBlock (pollBump s) (w0 :: ws)) q.endpoints
      .networking (by simp)
    obtain ⟨f2, _⟩ := stepEndpointsT_frame (wgBlock (pollBump s) (w0 :: ws)) q.endpoints
      .security (by simp)
    obtain ⟨g1, _⟩ := stepNlbT_frame _ q.nlbs_exact q.nlbs_contains q.tgs_exact q.tgs_contains
      q.target_health .networking (by simp) (by simp) (by simp)
    obtain ⟨g2, _⟩ := stepNlbT_frame _ q.nlbs_exact q.nlbs_contains q.tgs_exact q.tgs_contains
      q.target_health .security (by simp) (by simp) (by simp)
    obtain ⟨p1, _⟩ := stepCurrentPhase_get _ .networking
    obtain ⟨p2, _⟩ := stepCurrentPhase_get _ .security
    exact ⟨p1.trans (g1.trans (f1.trans r1)), p2.trans (g2.trans (f2.trans r2))⟩

/-- C2 witness: one available project consumer workgroup with an empty VPC poll
resolves networking and security to complete from the initial state. -/
theorem C2_witness :
    (update_deployment_status (initState "airline" 3)
      { vpcs := some [], subnets := none, workgroups := some [⟨"airline-consumer-1", "AVAILABLE"⟩],
        endpoints := none, nlbs_exact := none, nlbs_contains := none, tgs_exact := none,
        tgs_contains := none, target_health := none }).phase_status.get .networking =
      Status.complete ∧
    (update_deployment_status (initState "airline" 3)
      { vpcs := some [], subnets := none, workgroups := some [⟨"airline-consumer-1", "AVAILABLE"⟩],
        endpoints := none, nlbs_exact := none, nlbs_contains := none, tgs_exact := none,
        tgs_contains := none, target_health := none }).phase_status.get .security =
      Status.complete :=
  C2_transitive_inference (initState "airline" 3) _ _ ⟨"airline-consumer-1", "AVAILABLE"⟩
    (by intro k; cases k <;> decide) (Or.inr rfl) rfl (by decide) (by decide) (Or.inl rfl)

/-- State for the target-threshold scenario: three expected consumers and the
endpoints phase already sticky-complete, so the NLB/target section runs. -/
def c3State : MonitorState :=
  { initState "airline" 3 with
    phase_status := (PhaseMap.const Status.pending).set .vpc_endpoints Status.complete
    phase_complete_sticky := (PhaseMap.const false).set .vpc_endpoints true }

/-- Query results for the nine-healthy-targets poll. -/
def c3EnvNine : QueryEnv :=
  { vpcs := none, subnets := none, workgroups := none, endpoints := none
    nlbs_exact := some [⟨"active", some "airline-redshift-nlb.example"⟩]
    nlbs_contains := none
    tgs_exact := some ["arn:tg"], tgs_contains := none
    target_health := some (List.replicate 9 "healthy") }

/-- Query results for the eight-healthy-targets poll (nine registered targets,
one still initializing). -/
def c3EnvEight : QueryEnv :=
  { c3EnvNine with target_health := some ("initial" :: List.replicate 8 "healthy") }

/-- C3.  Target threshold: with three expected consumers the expected healthy
count is nine; a poll with nine healthy targets completes the target-registration
and health-check phases and sets the deployment-complete flag, while a poll with
eight healthy targets (targets registered) leaves both phases in progress and the
flag unset. -/
theorem C3_target_threshold :
    c3State.consumer_count * 3 = 9 ∧
    ((update_deployment_status c3State c3EnvNine).phase_status.get .targets = Status.complete ∧
     (update_deployment_status c3State c3EnvNine).phase_status.get .health = Status.complete ∧
     (update_deployment_status c3State c3EnvNine).deployment_complete = true) ∧
    ((update_deployment_status c3State c3EnvEight).phase_status.get .targets =
       Status.in_progress ∧
     (update_deployment_status c3State c3EnvEight).phase_status.get .health =
       Status.in_progress ∧
     (update_deployment_status c3State c3EnvEight).deployment_complete = false) := by
  exact ⟨rfl, ⟨rfl, rfl, rfl⟩, ⟨rfl, rfl, rfl⟩⟩

/-- C4.  Teardown detection: when the producer or any consumer workgroup is
observed DELETING/DELETED, or the load balancer state is "deleting", the rendered
frame has the teardown flag set, shows deployment-complete false whatever the
reconciler flag and phases say, and computes progress as the countdown of
still-existing resources. -/
theorem C4_teardown_detection (s : MonitorState)
    (h : s.resources.producer_status = some "DELETING" ∨
         s.resources.producer_status = some "DELETED" ∨
         (∃ p ∈ s.resources.consumer_statuses, p.2 = "DELETING" ∨ p.2 = "DELETED") ∨
         s.resources.nlb_state = some "deleting") :
    (render_frame s).teardown_mode = true ∧
    (render_frame s).deployment_complete = false ∧
    (render_frame s).progress =
      ProgressMode.countdown (existing_resources s.resources) PHASES.length := by
  have htd : teardown_detected s.resources = true := by
    unfold teardown_detected
    rcases h with h | h | ⟨p, hp, hps⟩ | h
    · simp [h]
    · simp [h]
    · have : s.resources.consumer_statuses.any
          (fun p => p.2 == "DELETING" || p.2 == "DELETED") = true := by
        rw [List.any_eq_true]
        refine ⟨p, hp, ?_⟩
        rcases hps with hps | hps <;> simp [hps]
      simp [this]
    · simp [h]
  unfold render_frame display_progress
  rw [htd]
  exact ⟨rfl, rfl, rfl⟩

/-- C4 witness: a producer workgroup observed DELETING flips the frame to
teardown mode with deployment-complete false and countdown progress, even though
the reconciler flag is set and the target phases are sticky-complete. -/
theorem C4_witness :
    (render_frame { initState "airline" 3 with
        deployment_complete := true
        phase_status := (PhaseMap.const Status.complete)
        phase_complete_sticky := (PhaseMap.const true)
        resources := { initResources with producer_status := some "DELETING" } }).teardown_mode =
      true ∧
    (render_frame { initState "airline" 3 with
        deployment_complete := true
        phase_status := (PhaseMap.const Status.complete)
        phase_complete_sticky := (PhaseMap.const true)
        resources := { initResources with
          producer_status := some "DELETING" } }).deployment_complete = false ∧
    (render_frame { initState "airline" 3 with
        deployment_complete := true
        phase_status := (PhaseMap.const Status.complete)
        phase_complete_sticky := (PhaseMap.const true)
        resources := { initResources with producer_status := some "DELETING" } }).progress =
      ProgressMode.countdown (existing_resources { initResources with
        producer_status := some "DELETING" }) PHASES.length :=
  C4_teardown_detection _ (Or.inl rfl)

theorem stepVpcT_trace_no_ep (s : MonitorState) (vpcs : Option (List VpcRow))
    (subnets : Option (List SubnetRow)) :
    QueryFamily.endpointsQ ∉ (stepVpcT s vpcs subnets).2 := by
  unfold stepVpcT
  split
  · simp
  · split
    · split
      · simp
      · simp
    · simp

theorem stepWorkgroupsT_trace (s : MonitorState) (wgs : Option (List WorkgroupRow)) :
    (stepWorkgroupsT s wgs).2 = [QueryFamily.workgroupsQ] := rfl

theorem stepEndpointsT_trace (s : MonitorState) (eps : Option (List EndpointRow)) :
    (stepEndpointsT s eps).2 =
      if (s.phase_status.get .consumer_workgroups == Status.complete) = true
      then [QueryFamily.endpointsQ] else [] := by
  unfold stepEndpointsT
  split
  · rfl
  · rfl

theorem tgSectionT_trace_no_ep (s : MonitorState) (tgs th : Option (List String))
    (t2 : List QueryFamily) (h : QueryFamily.endpointsQ ∉ t2) :
    QueryFamily.endpointsQ ∉ (tgSectionT s tgs th t2).2 := by
  unfold tgSectionT
  split
  · dsimp only
    intro hmem
    rcases List.mem_append.mp hmem with h1 | h1
    · exact h h1
    · simp at h1
  · exact h

theorem stepNlbT_trace_no_ep (s : MonitorState)
    (ne nc : Option (List NlbRow)) (te tc : Option (List String)) (th : Option (List String)) :
    QueryFamily.endpointsQ ∉ (stepNlbT s ne nc te tc th).2 := by
  unfold stepNlbT
  rcases ne with _ | ⟨_ | ⟨n0, nt⟩⟩ <;> rcases nc with _ | ⟨_ | ⟨m0, mt⟩⟩ <;>
    (split
     · simp only [truthy]
       first
       | (intro hmem
          rcases List.mem_append.mp hmem with h1 | h1
          · simp at h1
          · exact tgSectionT_trace_no_ep _ _ th _ (by split <;> simp) h1)
       | simp
     · simp)

/-- C5.  Ordering guard: the endpoint-access query is invoked in a cycle exactly
when the consumer-workgroups phase reads complete at the moment of the check
(after the workgroup section of the cycle); it is never invoked while that phase is
pending or in progress. -/
theorem C5_ordering_guard (s : MonitorState) (q : QueryEnv) :
    QueryFamily.endpointsQ ∈ queriesInvoked s q ↔
      (stateAtEndpointCheck s q).phase_status.get .consumer_workgroups = Status.complete := by
  unfold queriesInvoked stepCycleT stateAtEndpointCheck
  dsimp only
  rw [stepWorkgroupsT_trace, stepEndpointsT_trace]
  simp only [List.mem_append]
  constructor
  · rintro (((h | h) | h) | h)
    · exact absurd h (stepVpcT_trace_no_ep _ _ _)
    · simp at h
    · split at h
      · next hg => exact beq_iff_eq.mp hg
      · simp at h
    · exact absurd h (stepNlbT_trace_no_ep _ _ _ _ _ _)
  · intro hg
    refine Or.inl (Or.inr ?_)
    rw [if_pos (beq_iff_eq.mpr hg)]
    simp

/-- C6.  Idempotence of empty polls: any number of cycles in which every query
returns empty leaves the whole resource cache and every phase status and sticky
flag unchanged, whatever state the reconciler reached before. -/
theorem C6_empty_polls (s : MonitorState) (qs : List QueryEnv) (h : ∀ q ∈ qs, EmptyEnv q) :
    (runCycles s qs).resources = s.resources ∧
    (runCycles s qs).phase_status = s.phase_status ∧
    (runCycles s qs).phase_complete_sticky = s.phase_complete_sticky := by
  induction qs generalizing s with
  | nil => exact ⟨rfl, rfl, rfl⟩
  | cons q t ih =>
    obtain ⟨e1, e2, e3⟩ := update_empty s q (h q (by simp))
    obtain ⟨f1, f2, f3⟩ := ih (update_deployment_status s q) (fun q' hq' => h q' (by simp [hq']))
    exact ⟨f1.trans e1, f2.trans e2, f3.trans e3⟩

/-- All-empty query results: every call failed or returned nothing. -/
def emptyEnv0 : QueryEnv :=
  { vpcs := none, subnets := none, workgroups := none, endpoints := none
    nlbs_exact := none, nlbs_contains := none, tgs_exact := none, tgs_contains := none
    target_health := none }

theorem emptyEnv0_empty : EmptyEnv emptyEnv0 :=
  ⟨Or.inl rfl, Or.inl rfl, Or.inl rfl, Or.inl rfl, Or.inl rfl, Or.inl rfl, Or.inl rfl,
   Or.inl rfl, Or.inl rfl⟩

/-- C6 witness: two all-empty cycles after a populated state change nothing. -/
theorem C6_witness :
    (runCycles c3State [emptyEnv0, emptyEnv0]).resources = c3State.resources ∧
    (runCycles c3State [emptyEnv0, emptyEnv0]).phase_status = c3State.phase_status ∧
    (runCycles c3State [emptyEnv0, emptyEnv0]).phase_complete_sticky =
      c3State.phase_complete_sticky :=
  C6_empty_polls c3State [emptyEnv0, emptyEnv0]
    (by intro q hq; fin_cases hq <;> exact emptyEnv0_empty)

/-- Workgroup poll observing only the producer workgroup of the project in MODIFYING
state. -/
def c7EnvModifying : QueryEnv :=
  { emptyEnv0 with workgroups := some [⟨"airline-producer", "MODIFYING"⟩] }

/-- C7 counterexample: a producer workgroup observed in the transitional state
MODIFYING leaves both producer phases pending — the claimed
namespace-complete and workgroup-in-progress resolution does not happen (the
second workgroup pass only handles CREATING and AVAILABLE). -/
theorem C7_counterexample :
    (update_deployment_status (initState "airline" 3) c7EnvModifying).phase_status.get
      .producer_namespace = Status.pending ∧
    (update_deployment_status (initState "airline" 3) c7EnvModifying).phase_status.get
      .producer_workgroup = Status.pending := ⟨rfl, rfl⟩

/-- C7 (amended).  Producer inference: a project producer workgroup observed
CREATING (with no other producer-named row and fewer available project
workgroups than expected) makes the producer-namespace phase complete and the
producer-workgroup phase in-progress; observed AVAILABLE makes both complete.
A MODIFYING observation only counts toward the transitional trigger and sets
neither producer phase. -/
theorem C7_producer_inference :
    (∀ (s : MonitorState) (q : QueryEnv) (l : List WorkgroupRow) (nm : String),
      phase_consistent s →
      s.phase_complete_sticky.get .producer_workgroup = false →
      q.workgroups = some l →
      strContains nm s.project_name = true →
      strContains (lowerStr nm) "producer" = true →
      onlyProducerRow ⟨nm, "CREATING"⟩ l →
      (⟨nm, "CREATING"⟩ : WorkgroupRow) ∈ l →
      l.countP (availRow s.project_name) < s.consumer_count + 1 →
      (update_deployment_status s q).phase_status.get .producer_namespace = Status.complete ∧
      (update_deployment_status s q).phase_status.get .producer_workgroup =
        Status.in_progress) ∧
    (∀ (s : MonitorState) (q : QueryEnv) (l : List WorkgroupRow) (nm : String),
      phase_consistent s →
      q.workgroups = some l →
      strContains nm s.project_name = true →
      strContains (lowerStr nm) "producer" = true →
      onlyProducerRow ⟨nm, "AVAILABLE"⟩ l →
      (⟨nm, "AVAILABLE"⟩ : WorkgroupRow) ∈ l →
      (update_deployment_status s q).phase_status.get .producer_namespace = Status.complete ∧
      (update_deployment_status s q).phase_status.get .producer_workgroup = Status.complete) := by
  constructor
  · intro s q l nm hc hsk hw hn hp hshape hmem hcount
    rw [update_eq]
    unfold stateAtEndpointCheck
    rw [hw]
    cases l with
    | nil => simp at hmem
    | cons w0 ws =>
      have hcfg := stepVpcT_config (pollBump s) q.vpcs q.subnets
      have hc1 : phase_consistent (stepVpcT (pollBump s) q.vpcs q.subnets).1 :=
        stepVpcT_consistent _ _ _ hc
      have hsk1 : (stepVpcT (pollBump s) q.vpcs q.subnets).1.phase_complete_sticky.get
          .producer_workgroup = false :=
        ((stepVpcT_frame (pollBump s) q.vpcs q.subnets .producer_workgroup
          (by simp) (by simp)).2).trans hsk
      have hn1 : strContains nm
          (stepVpcT (pollBump s) q.vpcs q.subnets).1.project_name = true := by
        rw [hcfg.1]; exact hn
      have hcount1 : (w0 :: ws).countP
          (availRow (stepVpcT (pollBump s) q.vpcs q.subnets).1.project_name) <
          (stepVpcT (pollBump s) q.vpcs q.subnets).1.consumer_count + 1 := by
        rw [hcfg.1, hcfg.2]; exact hcount
      obtain ⟨r1, r2⟩ := wgBlock_creating (stepVpcT (pollBump s) q.vpcs q.subnets).1
        (w0 :: ws) nm hc1 hsk1 hp hshape hmem hn1 hcount1
      obtain ⟨f1, _⟩ := stepEndpointsT_frame
        (wgBlock (stepVpcT (pollBump s) q.vpcs q.subnets).1 (w0 :: ws)) q.endpoints
        .producer_namespace (by simp)
      obtain ⟨f2, _⟩ := stepEndpointsT_frame
        (wgBlock (stepVpcT (pollBump s) q.vpcs q.subnets).1 (w0 :: ws)) q.endpoints
        .producer_workgroup (by simp)
      obtain ⟨g1, _⟩ := stepNlbT_frame _ q.nlbs_exact q.nlbs_contains q.tgs_exact
        q.tgs_contains q.target_health .producer_namespace (by simp) (by simp) (by simp)
      obtain ⟨g2, _⟩ := stepNlbT_frame _ q.nlbs_exact q.nlbs_contains q.tgs_exact
        q.tgs_contains q.target_health .producer_workgroup (by simp) (by simp) (by simp)
      obtain ⟨p1, _⟩ := stepCurrentPhase_get _ .producer_namespace
      obtain ⟨p2, _⟩ := stepCurrentPhase_get _ .producer_workgroup
      exact ⟨p1.trans (g1.trans (f1.trans r1)), p2.trans (g2.trans (f2.trans r2))⟩
  · intro s q l nm hc hw hn hp hshape hmem
    rw [update_eq]
    unfold stateAtEndpointCheck
    rw [hw]
    cases l with
    | nil => simp at hmem
    | cons w0 ws =>
      have hcfg := stepVpcT_config (pollBump s) q.vpcs q.subnets
      have hc1 : phase_consistent (stepVpcT (pollBump s) q.vpcs q.subnets).1 :=
        stepVpcT_consistent _ _ _ hc
      have hn1 : strContains nm
          (stepVpcT (pollBump s) q.vpcs q.subnets).1.project_name = true := by
        rw [hcfg.1]; exact hn
      obtain ⟨r1, r2⟩ := wgBlock_available (stepVpcT (pollBump s) q.vpcs q.subnets).1
        (w0 :: ws) nm hc1 hp hshape hmem hn1
      obtain ⟨f1, _⟩ := stepEndpointsT_frame
        (wgBlock (stepVpcT (pollBump s) q.vpcs q.subnets).1 (w0 :: ws)) q.endpoints
        .producer_namespace (by simp)
      obtain ⟨f2, _⟩ := stepEndpointsT_frame
        (wgBlock (stepVpcT (pollBump s) q.vpcs q.subnets).1 (w0 :: ws)) q.endpoints
        .producer_workgroup (by simp)
      obtain ⟨g1, _⟩ := stepNlbT_frame _ q.nlbs_exact q.nlbs_contains q.tgs_exact
        q.tgs_contains q.target_health .producer_namespace (by simp) (by simp) (by simp)
      obtain ⟨g2, _⟩ := stepNlbT_frame _ q.nlbs_exact q.nlbs_contains q.tgs_exact
        q.tgs_contains q.target_health .producer_workgroup (by simp) (by simp) (by simp)
      obtain ⟨p1, _⟩ := stepCurrentPhase_get _ .producer_namespace
      obtain ⟨p2, _⟩ := stepCurrentPhase_get _ .producer_workgroup
      exact ⟨p1.trans (g1.trans (f1.trans r1)), p2.trans (g2.trans (f2.trans r2))⟩

/-- C7 witness: a CREATING producer row yields namespace complete and workgroup
in-progress; an AVAILABLE producer row yields both complete. -/
theorem C7_witness :
    ((update_deployment_status (initState "airline" 3)
        { emptyEnv0 with workgroups := some [⟨"airline-producer", "CREATING"⟩] }).phase_status.get
      .producer_namespace = Status.complete ∧
     (update_deployment_status (initState "airline" 3)
        { emptyEnv0 with workgroups := some [⟨"airline-producer", "CREATING"⟩] }).phase_status.get
      .producer_workgroup = Status.in_progress) ∧
    ((update_deployment_status (initState "airline" 3)
        { emptyEnv0 with workgroups := some [⟨"airline-producer", "AVAILABLE"⟩] }).phase_status.get
      .producer_namespace = Status.complete ∧
     (update_deployment_status (initState "airline" 3)
        { emptyEnv0 with workgroups := some [⟨"airline-producer", "AVAILABLE"⟩] }).phase_status.get
      .producer_workgroup = Status.complete) :=
  ⟨C7_producer_inference.1 (initState "airline" 3) _ _ "airline-producer"
    (by intro k; cases k <;> decide) rfl rfl (by decide) (by decide)
    (by intro r hr; simp at hr; exact Or.inl hr) (by simp) (by decide),
   C7_producer_inference.2 (initState "airline" 3) _ _ "airline-producer"
    (by intro k; cases k <;> decide) rfl (by decide) (by decide)
    (by intro r hr; simp at hr; exact Or.inl hr) (by simp)⟩

theorem stepNlbT_fallback (u : MonitorState) (ex nc' : Option (List NlbRow)) (lb : NlbRow)
    (te tc : Option (List String)) (th : Option (List String)) (h : listEmpty ex) :
    (stepNlbT u ex (some [lb]) te tc th).1 = (stepNlbT u (some [lb]) nc' te tc th).1 := by
  rcases h with h | h <;> subst h <;> (unfold stepNlbT; split <;> rfl)

/-- C8.  Fallback match equivalence: a cycle whose exact-name load-balancer query
returns empty and whose substring query returns exactly one load balancer ends in
the same state — in particular the same NLB phase status and the same recorded
`nlb_state` and `nlb_dns` — as a cycle whose exact-name query returned that load
balancer directly. -/
theorem C8_fallback_match (s : MonitorState) (q : QueryEnv) (lb : NlbRow)
    (h : listEmpty q.nlbs_exact) :
    (update_deployment_status s { q with nlbs_contains := some [lb] }).phase_status.get .nlb =
      (update_deployment_status s { q with nlbs_exact := some [lb] }).phase_status.get .nlb ∧
    (update_deployment_status s { q with nlbs_contains := some [lb] }).resources.nlb_state =
      (update_deployment_status s { q with nlbs_exact := some [lb] }).resources.nlb_state ∧
    (update_deployment_status s { q with nlbs_contains := some [lb] }).resources.nlb_dns =
      (update_deployment_status s { q with nlbs_exact := some [lb] }).resources.nlb_dns := by
  have heq : update_deployment_status s { q with nlbs_contains := some [lb] } =
      update_deployment_status s { q with nlbs_exact := some [lb] } := by
    show stepCurrentPhase (stepNlbT
        (stepEndpointsT (stateAtEndpointCheck s q) q.endpoints).1
        q.nlbs_exact (some [lb]) q.tgs_exact q.tgs_contains q.target_health).1 =
      stepCurrentPhase (stepNlbT
        (stepEndpointsT (stateAtEndpointCheck s q) q.endpoints).1
        (some [lb]) q.nlbs_contains q.tgs_exact q.tgs_contains q.target_health).1
    exact congrArg stepCurrentPhase (stepNlbT_fallback _ _ _ lb _ _ _ h)
  rw [heq]
  exact ⟨rfl, rfl, rfl⟩

/-- C8 witness: from a state whose endpoints phase is complete, the substring
fallback yields the same NLB result as a successful exact match. -/
theorem C8_witness :
    (update_deployment_status c3State
       { emptyEnv0 with nlbs_contains := some [⟨"active", some "dns"⟩] }).phase_status.get .nlb =
      (update_deployment_status c3State
       { emptyEnv0 with nlbs_exact := some [⟨"active", some "dns"⟩] }).phase_status.get .nlb ∧
    (update_deployment_status c3State
       { emptyEnv0 with nlbs_contains := some [⟨"active", some "dns"⟩] }).resources.nlb_state =
      (update_deployment_status c3State
       { emptyEnv0 with nlbs_exact := some [⟨"active", some "dns"⟩] }).resources.nlb_state ∧
    (update_deployment_status c3State
       { emptyEnv0 with nlbs_contains := some [⟨"active", some "dns"⟩] }).resources.nlb_dns =
      (update_deployment_status c3State
       { emptyEnv0 with nlbs_exact := some [⟨"active", some "dns"⟩] }).resources.nlb_dns :=
  C8_fallback_match c3State emptyEnv0 ⟨"active", some "dns"⟩ (Or.inl rfl)

/-- C9.  Adaptive polling cadence: the sleep interval after a cycle is 10 seconds
when the deployment-complete flag is set; else 1 second when the
target-registration or health-check phase is in progress; else 1.5 seconds when
the NLB phase is in progress; else 2 seconds when any other phase is in
progress; else 3 seconds. -/
theorem C9_adaptive_polling (s : MonitorState) :
    (s.deployment_complete = true → poll_interval s = 10) ∧
    (s.deployment_complete = false →
      (s.phase_status.get .targets = Status.in_progress ∨
       s.phase_status.get .health = Status.in_progress) →
      poll_interval s = 1) ∧
    (s.deployment_complete = false →
      s.phase_status.get .targets ≠ Status.in_progress →
      s.phase_status.get .health ≠ Status.in_progress →
      s.phase_status.get .nlb = Status.in_progress →
      poll_interval s = 3 / 2) ∧
    (s.deployment_complete = false →
      s.phase_status.get .targets ≠ Status.in_progress →
      s.phase_status.get .health ≠ Status.in_progress →
      s.phase_status.get .nlb ≠ Status.in_progress →
      (∃ k ∈ PHASES, s.phase_status.get k = Status.in_progress) →
      poll_interval s = 2) ∧
    (s.deployment_complete = false →
      (∀ k ∈ PHASES, s.phase_status.get k ≠ Status.in_progress) →
      poll_interval s = 3) := by
  refine ⟨?_, ?_, ?_, ?_, ?_⟩
  · intro h
    unfold poll_interval
    rw [if_pos h]
  · intro hdc hip
    unfold poll_interval
    rw [if_neg (by simp [hdc]), if_pos (by rcases hip with h | h <;> simp [h])]
  · intro hdc h1 h2 h3
    unfold poll_interval
    rw [if_neg (by simp [hdc]), if_neg (by simp [h1, h2]), if_pos (by simp [h3])]
  · intro hdc h1 h2 h3 hex
    unfold poll_interval
    rw [if_neg (by simp [hdc]), if_neg (by simp [h1, h2]), if_neg (by simp [h3]),
        if_pos ?_]
    obtain ⟨k, hk, hkp⟩ := hex
    rw [List.any_eq_true]
    exact ⟨k, hk, by simp [hkp]⟩
  · intro hdc hall
    unfold poll_interval
    rw [if_neg (by simp [hdc]),
        if_neg (by simp [hall .targets (by simp [PHASES]), hall .health (by simp [PHASES])]),
        if_neg (by simp [hall .nlb (by simp [PHASES])]), if_neg ?_]
    rw [List.any_eq_true]
    rintro ⟨k, hk, hkp⟩
    exact hall k hk (by simpa using hkp)

/-- C9 witness: the five cadence cases at concrete states. -/
theorem C9_witness :
    poll_interval { initState "airline" 3 with deployment_complete := true } = 10 ∧
    poll_interval { initState "airline" 3 with
      phase_status := (PhaseMap.const Status.pending).set .targets Status.in_progress } = 1 ∧
    poll_interval { initState "airline" 3 with
      phase_status := (PhaseMap.const Status.pending).set .nlb Status.in_progress } = 3 / 2 ∧
    poll_interval { initState "airline" 3 with
      phase_status := (PhaseMap.const Status.pending).set .networking Status.in_progress } = 2 ∧
    poll_interval (initState "airline" 3) = 3 :=
  ⟨(C9_adaptive_polling _).1 rfl,
   (C9_adaptive_polling _).2.1 rfl (Or.inl (by decide)),
   (C9_adaptive_polling _).2.2.1 rfl (by decide) (by decide) (by decide),
   (C9_adaptive_polling _).2.2.2.1 rfl (by decide) (by decide) (by decide)
     ⟨.networking, by simp [PHASES], by decide⟩,
   (C9_adaptive_polling _).2.2.2.2 rfl (by intro k hk; cases k <;> decide)⟩

/-- C10.  Deployment-complete is monotone in the reconciler: once
`update_deployment_status` sets the flag it stays set through any further
cycles; teardown detection only forces the per-frame display copy to false,
leaving the reconciler field true. -/
theorem C10_deployment_complete_monotone :
    (∀ (s : MonitorState) (q : QueryEnv), s.deployment_complete = true →
       (update_deployment_status s q).deployment_complete = true) ∧
    (∀ (s : MonitorState) (qs : List QueryEnv), s.deployment_complete = true →
       (runCycles s qs).deployment_complete = true) ∧
    (∀ s : MonitorState, teardown_detected s.resources = true → s.deployment_complete = true →
       (render_frame s).deployment_complete = false ∧
       ∀ qs : List QueryEnv, (runCycles s qs).deployment_complete = true) := by
  refine ⟨update_dc_mono, fun s qs h => runCycles_dc_mono qs s h, ?_⟩
  intro s htd hdc
  constructor
  · unfold render_frame
    rw [htd]
    rfl
  · intro qs
    exact runCycles_dc_mono qs s hdc

/-- C10 witness: a completed deployment observing a deleting producer shows a
false display copy while the reconciler flag survives further cycles. -/
theorem C10_witness :
    (update_deployment_status { c3State with deployment_complete := true }
      emptyEnv0).deployment_complete = true ∧
    (runCycles { c3State with deployment_complete := true }
      [emptyEnv0, emptyEnv0]).deployment_complete = true ∧
    ((render_frame { c3State with
        deployment_complete := true
        resources := { initResources with producer_status := some "DELETING" } }).deployment_complete
      = false ∧
     ∀ qs : List QueryEnv, (runCycles { c3State with
        deployment_complete := true
        resources := { initResources with
          producer_status := some "DELETING" } } qs).deployment_complete = true) :=
  ⟨C10_deployment_complete_monotone.1 _ emptyEnv0 rfl,
   C10_deployment_complete_monotone.2.1 _ [emptyEnv0, emptyEnv0] rfl,
   C10_deployment_complete_monotone.2.2 _ (by decide) rfl⟩
